import Mathlib

/-!
Verification development for the meshtastic-monitor backend.

The definitions below are a shallow embedding of the Python sources:
  * `src/backend/stats_db.py`   (StatsDB: recorders and summary queries)
  * `src/backend/mesh_service.py` (MeshService: reconfigure, ring buffer, send_text)
  * `src/backend/jsonsafe.py` / `src/backend/stats_utils.py` (helpers)

Modelling conventions:
  * Python `int` is `Int` (arbitrary precision in Python, so no wrap-around);
    SQL `COUNT`-like values are `Nat`.
  * Python `None`-able values are `Option _`.
  * Python dicts used as keyed tables (and the SQLite tables keyed by a
    primary key) are association lists `List (key × row)`; insertion keeps
    first-insertion order, updates are in place, exactly like a Python dict
    and like SQLite `INSERT OR IGNORE` + `UPDATE`.
  * SNR/RSSI values are only passed through and compared against integer
    thresholds, so they are modelled as `Int`; SQL `AVG` is modelled with `Rat`.
  * `time.time()` is passed in explicitly as a `now : Int` parameter.
-/

set_option autoImplicit false

namespace MeshMon

universe u v

/-- Characters treated as whitespace by Python `str.strip` for the inputs in this codebase. -/
def isPySpace (c : Char) : Bool := c = ' ' || c = '\t' || c = '\n' || c = '\r'

/-- Python `str.strip()`: drop leading and trailing whitespace. -/
def pyStrip (s : String) : String :=
  String.mk (((s.data.dropWhile isPySpace).reverse.dropWhile isPySpace).reverse)

/-- Python `str.lower()` (ASCII inputs only in this codebase). -/
def pyLower (s : String) : String := String.mk (s.data.map Char.toLower)

/-- `jsonsafe.clamp_str`: `None` stays `None`, long strings are truncated with an ellipsis. -/
def clamp_str (value : Option String) (max_len : Nat) : Option String :=
  match value with
  | none => none
  | some s => if s.data.length > max_len then some (String.mk (s.data.take max_len) ++ "…") else some s

/-- `jsonsafe.quality_bucket` on the integer SNR values used in this development. -/
def quality_bucket (snr : Option Int) : Option String :=
  match snr with
  | none => none
  | some s =>
    if s ≥ 0 then some "good"
    else if s ≥ -7 then some "ok"
    else if s ≥ -12 then some "weak"
    else some "bad"

/-- A Python `portnum` value: the library delivers either an app-name string or an integer. -/
abbrev PortNum := String ⊕ Int

/-- `jsonsafe.portnum_name`: strings pass through, known integer ports are named. -/
def portnum_name (portnum : Option PortNum) : Option String :=
  match portnum with
  | none => none
  | some (Sum.inl s) => some s
  | some (Sum.inr v) =>
    if v = 3 then some "POSITION_APP"
    else if v = 4 then some "NODEINFO_APP"
    else if v = 5 then some "ROUTING_APP"
    else if v = 67 then some "TELEMETRY_APP"
    else none

/-- `stats_utils._to_str_or_none` restricted to the string inputs used here. -/
def _to_str_or_none (value : Option String) : Option String :=
  match value with
  | none => none
  | some s => let out := pyStrip s; if out = "" then none else some out

/-- `stats_utils._bool_to_int` on the `Option Bool` inputs used here. -/
def _bool_to_int (value : Option Bool) : Option Int :=
  match value with
  | none => none
  | some b => some (if b then 1 else 0)

/-- Python `int()` applied to a portnum value (`int` is the identity, a numeric
string parses, an app-name string raises and yields `None` via `_to_int_or_none`). -/
def _to_int_or_none_port (value : Option PortNum) : Option Int :=
  match value with
  | none => none
  | some (Sum.inl s) => s.toInt?
  | some (Sum.inr v) => some v

/-! ### Association-list tables (Python dicts / SQLite keyed tables) -/

variable {κ : Type u} {α : Type v}

/-- First-match lookup in an association list (Python `dict.get` / SQL `WHERE key = ?`). -/
def alookup [DecidableEq κ] (l : List (κ × α)) (k : κ) : Option α :=
  match l with
  | [] => none
  | p :: rest => if p.1 = k then some p.2 else alookup rest k

/-- `INSERT OR IGNORE`: append a default row unless the key is already present. -/
def tableEnsure [DecidableEq κ] (l : List (κ × α)) (k : κ) (d : α) : List (κ × α) :=
  if (alookup l k).isSome then l else l ++ [(k, d)]

/-- `UPDATE ... WHERE key = ?`: rewrite the rows with the given key in place. -/
def tableUpdate [DecidableEq κ] (l : List (κ × α)) (k : κ) (f : α → α) : List (κ × α) :=
  match l with
  | [] => []
  | p :: rest => (if p.1 = k then (p.1, f p.2) else p) :: tableUpdate rest k f

/-- Python `d[k] = v`: in-place overwrite if present, append otherwise
(a Python dict keeps the original insertion position on overwrite). -/
def dictSet [DecidableEq κ] (l : List (κ × α)) (k : κ) (v : α) : List (κ × α) :=
  tableUpdate (tableEnsure l k v) k (fun _ => v)

@[simp] theorem alookup_nil [DecidableEq κ] (k : κ) : alookup ([] : List (κ × α)) k = none := rfl

@[simp] theorem alookup_cons [DecidableEq κ] (p : κ × α) (l : List (κ × α)) (k : κ) :
    alookup (p :: l) k = if p.1 = k then some p.2 else alookup l k := rfl

theorem alookup_append [DecidableEq κ] (l₁ l₂ : List (κ × α)) (k : κ) :
    alookup (l₁ ++ l₂) k = (alookup l₁ k).or (alookup l₂ k) := by
  induction l₁ with
  | nil => simp
  | cons p rest ih =>
    by_cases h : p.1 = k <;> simp [h, ih, Option.or]

theorem alookup_eq_none_iff [DecidableEq κ] (l : List (κ × α)) (k : κ) :
    alookup l k = none ↔ ∀ p ∈ l, p.1 ≠ k := by
  induction l with
  | nil => simp
  | cons p rest ih =>
    by_cases h : p.1 = k <;> simp [h, ih]

theorem alookup_tableUpdate_self [DecidableEq κ] (l : List (κ × α)) (k : κ) (f : α → α) :
    alookup (tableUpdate l k f) k = (alookup l k).map f := by
  induction l with
  | nil => rfl
  | cons p rest ih =>
    by_cases h : p.1 = k
    · simp [tableUpdate, h]
    · simp only [tableUpdate, if_neg h, alookup_cons, if_neg h]
      exact ih

theorem alookup_tableUpdate_ne [DecidableEq κ] (l : List (κ × α)) (k k' : κ) (f : α → α)
    (h : k' ≠ k) : alookup (tableUpdate l k f) k' = alookup l k' := by
  induction l with
  | nil => rfl
  | cons p rest ih =>
    by_cases hp : p.1 = k
    · have hp' : p.1 ≠ k' := by rw [hp]; exact fun hkk => h hkk.symm
      simp only [tableUpdate, if_pos hp, alookup_cons, if_neg hp']
      exact ih
    · simp only [tableUpdate, if_neg hp, alookup_cons]
      by_cases hp' : p.1 = k'
      · simp [hp']
      · simp only [if_neg hp']
        exact ih

theorem alookup_tableEnsure_self [DecidableEq κ] (l : List (κ × α)) (k : κ) (d : α) :
    alookup (tableEnsure l k d) k = some ((alookup l k).getD d) := by
  unfold tableEnsure
  cases h : alookup l k with
  | none => simp [h, alookup_append]
  | some v => simp [h]

theorem alookup_tableEnsure_ne [DecidableEq κ] (l : List (κ × α)) (k k' : κ) (d : α)
    (h : k' ≠ k) : alookup (tableEnsure l k d) k' = alookup l k' := by
  unfold tableEnsure
  cases hl : (alookup l k).isSome
  · have hne : ¬ (k = k') := fun hkk => h hkk.symm
    simp [hl, alookup_append, hne, Option.or]
    cases alookup l k' <;> rfl
  · simp [hl]

theorem alookup_dictSet_self [DecidableEq κ] (l : List (κ × α)) (k : κ) (v : α) :
    alookup (dictSet l k v) k = some v := by
  unfold dictSet
  rw [alookup_tableUpdate_self, alookup_tableEnsure_self]
  rfl

theorem alookup_dictSet_ne [DecidableEq κ] (l : List (κ × α)) (k k' : κ) (v : α)
    (h : k' ≠ k) : alookup (dictSet l k v) k' = alookup l k' := by
  unfold dictSet
  rw [alookup_tableUpdate_ne _ _ _ _ h, alookup_tableEnsure_ne _ _ _ _ h]

/-! ### A stable sort (Python `sorted` / SQL `ORDER BY`)

Only permutation and membership facts about the sort are used by the theorems,
matching the fact that the claims never depend on tie order. -/

variable {β : Type u}

/-- Stable insert for `sortedBy`: keep `x` before the first element it may precede. -/
def insertLe (le : β → β → Bool) (x : β) : List β → List β
  | [] => [x]
  | y :: ys => if le x y then x :: y :: ys else y :: insertLe le x ys

/-- Lexicographic order on char lists by code point — SQLite's ordering of
`TEXT` columns (byte order agrees with code-point order for these ids). -/
def charListLt : List Char → List Char → Bool
  | [], [] => false
  | [], _ :: _ => true
  | _ :: _, [] => false
  | a :: as, b :: bs =>
    if a.toNat < b.toNat then true
    else if b.toNat < a.toNat then false
    else charListLt as bs

/-- `ORDER BY` on a string column, ascending. -/
def strLt (a b : String) : Bool := charListLt a.data b.data

/-- Stable insertion sort with a boolean "may come before" relation. -/
def sortedBy (le : β → β → Bool) : List β → List β
  | [] => []
  | x :: xs => insertLe le x (sortedBy le xs)

theorem perm_insertLe (le : β → β → Bool) (x : β) (l : List β) :
    List.Perm (insertLe le x l) (x :: l) := by
  induction l with
  | nil => exact List.Perm.refl _
  | cons y ys ih =>
    unfold insertLe
    by_cases h : le x y
    · simp [h]
    · simp only [h, if_false]
      exact (ih.cons y).trans (List.Perm.swap x y ys)

theorem perm_sortedBy (le : β → β → Bool) (l : List β) :
    List.Perm (sortedBy le l) l := by
  induction l with
  | nil => exact List.Perm.refl _
  | cons x xs ih => exact (perm_insertLe le x (sortedBy le xs)).trans (ih.cons x)

theorem mem_sortedBy (le : β → β → Bool) (l : List β) (a : β) :
    a ∈ sortedBy le l ↔ a ∈ l :=
  (perm_sortedBy le l).mem_iff

/-! ### The message model (`jsonsafe.json_safe_packet` output / `record_message` input) -/

/-- A decoded inbound packet as handed to `StatsDB.record_message`
(the JSON-safe dict built by `json_safe_packet`, or the decode-error fallback). -/
structure Msg where
  rxTime : Option Int
  fromId : Option String
  toId : Option String
  snr : Option Int
  rssi : Option Int
  hopLimit : Option Int
  channel : Option Int
  portnum : Option PortNum
  app : Option String
  requestId : Option Int
  wantResponse : Option Bool
  text : Option String
  payload_b64 : Option String
  error : Option String
deriving Repr, DecidableEq

/-- A message dict with every field absent, for building test inputs. -/
def emptyMsg : Msg := ⟨none, none, none, none, none, none, none, none, none, none, none, none, none, none⟩

/-- `stats_utils._app_name_from_message`: the `app` field if it is a non-empty
string, otherwise `portnum_name` of the `portnum` field. -/
def _app_name_from_message (msg : Msg) : Option String :=
  match msg.app with
  | some a => if a ≠ "" then some a else portnum_name msg.portnum
  | none => portnum_name msg.portnum

/-! ### StatsDB state (`src/backend/stats_db.py`) -/

/-- One `hourly_counts` row. -/
structure HourRow where
  messages : Nat
  with_text : Nat
  with_payload : Nat
deriving Repr, DecidableEq

/-- A fresh `hourly_counts` row (inserted by `_ensure_hour`). -/
def emptyHourRow : HourRow := ⟨0, 0, 0⟩

/-- One `node_counts` row (after the additive schema migration). -/
structure NodeRow where
  from_count : Nat
  to_count : Nat
  last_rx : Option Int
  last_snr : Option Int
  last_rssi : Option Int
  short : Option String
  long : Option String
  role : Option String
  hw_model : Option String
  firmware : Option String
  hops_away : Option Int
  last_heard : Option Int
deriving Repr, DecidableEq

/-- A fresh `node_counts` row (inserted by `_ensure_node` / the snapshot insert). -/
def emptyNodeRow : NodeRow := ⟨0, 0, none, none, none, none, none, none, none, none, none, none⟩

/-- One `events` row (the AUTOINCREMENT id is the list position). -/
structure EventRow where
  ts : Int
  event : String
  detail : Option String
deriving Repr, DecidableEq

/-- One `app_counts` row. -/
structure AppRow where
  total : Nat
  requests : Nat
deriving Repr, DecidableEq

/-- One `app_requests` row (keyed by `(app, from_id, to_id)`). -/
structure AppReqRow where
  count : Nat
  last_ts : Int
deriving Repr, DecidableEq

/-- One `node_history` row (the AUTOINCREMENT id is the list position). -/
structure HistRow where
  ts : Int
  node_id : String
  snr : Option Int
  quality : Option String
  hops_away : Option Int
  last_heard : Option Int
deriving Repr, DecidableEq

/-- One `messages` row as written by `_store_message`. -/
structure MsgRow where
  rx_time : Int
  from_id : Option String
  to_id : Option String
  snr : Option Int
  rssi : Option Int
  hop_limit : Option Int
  channel : Option Int
  portnum : Option Int
  app : Option String
  request_id : Option Int
  want_response : Option Int
  text : Option String
  payload_b64 : Option String
  error : Option String
deriving Repr, DecidableEq

/-- One `status_reports` row. The JSON report is kept abstract: the
column-by-column flattening done by `record_status_report` is not modelled
because no claim reads an individual column. -/
structure StatusReportPayload where
  payload : String
deriving Repr, DecidableEq

/-- The full `StatsDB` state: every SQLite table plus the in-memory throttle
fields set in `StatsDB.__init__`. -/
structure StatsDB where
  counters : List (String × Int)
  hourly_counts : List (Int × HourRow)
  node_counts : List (String × NodeRow)
  events : List EventRow
  app_counts : List (String × AppRow)
  app_requests : List ((String × String × String) × AppReqRow)
  node_history : List HistRow
  messages : List MsgRow
  status_reports : List (Int × StatusReportPayload)
  nodes_history_interval_sec : Nat
  last_nodes_history_ts : Option Int
  status_history_interval_sec : Nat
  last_status_history_ts : Option Int
deriving Repr, DecidableEq

/-- `StatsDB.__init__` on a fresh database: empty tables, the intervals clamped
with `max(0, int(...))`, and no last-write timestamps. -/
def StatsDB.init (nodes_history_interval_sec status_history_interval_sec : Int) : StatsDB :=
  ⟨[], [], [], [], [], [], [], [], [],
   (max 0 nodes_history_interval_sec).toNat, none,
   (max 0 status_history_interval_sec).toNat, none⟩

/-- A fresh store with the default intervals (60s, as in `StatsDB.__init__`). -/
def emptyStatsDB : StatsDB := StatsDB.init 60 60

/-! ### StatsDB recorders -/

/-- `StatsDB._incr_counter`: `INSERT OR IGNORE` a zero row, then add the delta. -/
def incr_counter (db : StatsDB) (key : String) (delta : Int) : StatsDB :=
  { db with counters := tableUpdate (tableEnsure db.counters key 0) key (fun v => v + delta) }

/-- `StatsDB._ensure_hour`. -/
def _ensure_hour (db : StatsDB) (hour : Int) : StatsDB :=
  { db with hourly_counts := tableEnsure db.hourly_counts hour emptyHourRow }

/-- `StatsDB._ensure_node`. -/
def _ensure_node (db : StatsDB) (node_id : String) : StatsDB :=
  { db with node_counts := tableEnsure db.node_counts node_id emptyNodeRow }

/-- `StatsDB._add_event`: append an `events` row stamped with the current time. -/
def _add_event (db : StatsDB) (now : Int) (event : String) (detail : Option String) : StatsDB :=
  { db with events := db.events ++ [⟨now, event, detail⟩] }

/-- The timestamp selection at the top of `record_message` (and repeated in
`_record_app_request`): the message's `rxTime` when it is a positive number,
otherwise the current time. -/
def msg_ts (now : Int) (msg : Msg) : Int :=
  match msg.rxTime with
  | some t => if t > 0 then t else now
  | none => now

/-- `StatsDB._record_app_appearance`. -/
def _record_app_appearance (db : StatsDB) (msg : Msg) : StatsDB :=
  match _app_name_from_message msg with
  | none => db
  | some app =>
    if app = "" then db else
    let has_request_id := msg.requestId.isSome
    let wants_response := msg.wantResponse = some true
    let is_request := has_request_id ∨ wants_response
    { db with app_counts := (tableUpdate (tableEnsure db.app_counts app ⟨0, 0⟩) app
        (fun r => ⟨r.total + 1, r.requests + (if is_request then 1 else 0)⟩)) }

/-- The `app_requests` table transform of `StatsDB._record_app_request`
(every early `return` of the Python leaves the table unchanged). -/
def _record_app_request_table (tbl : List ((String × String × String) × AppReqRow))
    (now : Int) (msg : Msg) : List ((String × String × String) × AppReqRow) :=
  match _app_name_from_message msg with
  | none => tbl
  | some app =>
    if app = "" then tbl else
    let has_request_id := msg.requestId.isSome
    let wants_response := msg.wantResponse = some true
    if ¬ (has_request_id ∨ wants_response) then tbl else
    match msg.fromId with
    | none => tbl
    | some from_id =>
      if from_id = "" then tbl else
      let to_id_norm := match msg.toId with
        | some t => if t ≠ "" then pyStrip t else "^all"
        | none => "^all"
      let ts := msg_ts now msg
      tableUpdate (tableEnsure tbl (app, from_id, to_id_norm) ⟨0, ts⟩)
        (app, from_id, to_id_norm) (fun r => ⟨r.count + 1, ts⟩)

/-- `StatsDB._record_app_request`: upsert the directed request edge keyed by
`(app, from_id, normalized to_id)`, where a missing/empty destination
normalizes to the broadcast sentinel `"^all"`. -/
def _record_app_request (db : StatsDB) (now : Int) (msg : Msg) : StatsDB :=
  { db with app_requests := _record_app_request_table db.app_requests now msg }

/-- `StatsDB._store_message` (the swallowed-insert-failure path never fires in the model). -/
def _store_message (db : StatsDB) (msg : Msg) (ts : Int) : StatsDB :=
  { db with messages := db.messages ++ [⟨ts,
      _to_str_or_none msg.fromId,
      _to_str_or_none msg.toId,
      msg.snr, msg.rssi, msg.hopLimit, msg.channel,
      _to_int_or_none_port msg.portnum,
      _to_str_or_none msg.app,
      msg.requestId,
      _bool_to_int msg.wantResponse,
      clamp_str msg.text 4000,
      _to_str_or_none msg.payload_b64,
      clamp_str msg.error 600⟩] }

/-- The hour alignment shared by `record_message` (bucket key) and
`_get_hourly` (window start): `t - t % 3600` with Python/SQL flooring `%`. -/
def hour_floor (t : Int) : Int := t - t % 3600

/-- The sender-side `node_counts` update inside `record_message`. -/
def record_message_from (db : StatsDB) (ts : Int) (msg : Msg) : StatsDB :=
  match msg.fromId with
  | some from_id =>
    if from_id ≠ "" then
      let db := _ensure_node db from_id
      { db with node_counts := (tableUpdate db.node_counts from_id (fun r =>
          { r with from_count := r.from_count + 1, last_rx := some ts,
                   last_snr := msg.snr, last_rssi := msg.rssi })) }
    else db
  | none => db

/-- The receiver-side `node_counts` update inside `record_message`. -/
def record_message_to (db : StatsDB) (msg : Msg) : StatsDB :=
  match msg.toId with
  | some to_id =>
    if to_id ≠ "" then
      let db := _ensure_node db to_id
      { db with node_counts := (tableUpdate db.node_counts to_id (fun r =>
          { r with to_count := r.to_count + 1 })) }
    else db
  | none => db

/-- `StatsDB.record_message`: counters, the hour-aligned bucket
(`hour = ts - ts % 3600`), per-node counts, app usage, request edges, and the
message log, all in one transaction. -/
def record_message (db : StatsDB) (now : Int) (msg : Msg) : StatsDB :=
  let ts := msg_ts now msg
  let has_text : Bool := match msg.text with
    | some t => pyStrip t != ""
    | none => false
  let has_payload := msg.payload_b64.isSome
  let hour := hour_floor ts
  let db := incr_counter db "messages_total" 1
  let db := if has_text then incr_counter db "messages_text" 1 else db
  let db := if has_payload then incr_counter db "messages_payload" 1 else db
  let db := _ensure_hour db hour
  let db := { db with hourly_counts := (tableUpdate db.hourly_counts hour (fun r =>
      ⟨r.messages + 1,
       r.with_text + (if has_text then 1 else 0),
       r.with_payload + (if has_payload then 1 else 0)⟩)) }
  let db := record_message_from db ts msg
  let db := record_message_to db msg
  let db := _record_app_appearance db msg
  let db := _record_app_request db now msg
  _store_message db msg ts

/-! ### Node snapshots (`StatsDB.record_nodes_snapshot`, `jsonsafe.node_user_fields`) -/

/-- The `user` sub-dict of a meshtastic node entry. The camelCase/snake_case
key fallbacks (`shortName or short_name`, ...) are collapsed into one field;
the Python `or` chain also treats an empty string as absent, which
`str_or_none_falsy` reproduces. -/
structure PyUser where
  shortName : Option String
  longName : Option String
  role : Option String
  hwModel : Option String
deriving Repr, DecidableEq

/-- One node entry of the snapshot dict passed to `record_nodes_snapshot`. -/
structure PyNode where
  user : Option PyUser
  hopsAway : Option Int
  lastHeard : Option Int
  snr : Option Int
deriving Repr, DecidableEq

/-- Python `a or b` on strings where `b` is absent: an empty string is falsy. -/
def str_or_none_falsy (v : Option String) : Option String :=
  match v with
  | none => none
  | some s => if s = "" then none else some s

/-- The result record of `jsonsafe.node_user_fields`. -/
structure UserFields where
  short : Option String
  long : Option String
  role : Option String
  hwModel : Option String
deriving Repr, DecidableEq

/-- `jsonsafe.node_user_fields`: names clamped, the role defaulting to
`"CLIENT"` whenever the user dict carries no (or a falsy) role. -/
def node_user_fields (node : Option PyNode) : UserFields :=
  match node with
  | none => ⟨none, none, some "CLIENT", none⟩
  | some n =>
    let user_short := match n.user with | none => none | some u => str_or_none_falsy u.shortName
    let user_long := match n.user with | none => none | some u => str_or_none_falsy u.longName
    let user_role := match n.user with | none => none | some u => u.role
    let user_hw := match n.user with | none => none | some u => str_or_none_falsy u.hwModel
    let role_val := match user_role with
      | some r => if r = "" then "CLIENT" else r
      | none => "CLIENT"
    ⟨clamp_str user_short 40, clamp_str user_long 80, clamp_str (some role_val) 40, clamp_str user_hw 40⟩

/-- One tuple of the `entries` list built inside `record_nodes_snapshot`
(`firmware` is hard-coded to `None` there). -/
structure SnapEntry where
  node_id : String
  short : Option String
  long : Option String
  role : Option String
  hw_model : Option String
  firmware : Option String
  hops_away : Option Int
  last_heard : Option Int
  snr : Option Int
deriving Repr, DecidableEq

/-- The per-node body of the `for node_id, node in nodes.items()` loop of
`record_nodes_snapshot`: empty ids are skipped, `lastHeard` must be positive. -/
def snap_entry_of (p : String × PyNode) : Option SnapEntry :=
  if p.1 = "" then none else
  let fields := node_user_fields (some p.2)
  let last_heard_int := match p.2.lastHeard with
    | some lh => if lh > 0 then some lh else none
    | none => none
  some ⟨p.1, fields.short, fields.long, fields.role, fields.hwModel, none,
        p.2.hopsAway, last_heard_int, p.2.snr⟩

/-- The `node_history` row appended for one snapshot entry. -/
def hist_row_of (ts : Int) (e : SnapEntry) : HistRow :=
  ⟨ts, e.node_id, e.snr, quality_bucket e.snr, e.hops_away, e.last_heard⟩

/-- The `UPDATE node_counts SET short = COALESCE(?, short), ...` row transform:
identity fields take the new value when it is non-NULL (`new.or old`), while
`last_snr`/`last_rx` keep the old value when it exists (`old.or new`). -/
def coalesce_update (e : SnapEntry) (r : NodeRow) : NodeRow :=
  { r with short := e.short.or r.short,
           long := e.long.or r.long,
           role := e.role.or r.role,
           hw_model := e.hw_model.or r.hw_model,
           firmware := e.firmware.or r.firmware,
           hops_away := e.hops_away.or r.hops_away,
           last_heard := e.last_heard.or r.last_heard,
           last_snr := r.last_snr.or e.snr,
           last_rx := r.last_rx.or e.last_heard }

/-- The `should_store_history` computation at the top of
`StatsDB.record_nodes_snapshot`: a single store-global last-write timestamp. -/
def nodes_history_should_store (db : StatsDB) (snapshot_ts : Int) : Bool :=
  if db.nodes_history_interval_sec > 0 then
    match db.last_nodes_history_ts with
    | some last_ts => !(decide (snapshot_ts - last_ts < (db.nodes_history_interval_sec : Int)))
    | none => true
  else true

/-- `StatsDB.record_nodes_snapshot`: upsert cumulative identity fields for every
node and, when the store-global history throttle allows it, append one
`node_history` row per node and move the single last-write timestamp. -/
def record_nodes_snapshot (db : StatsDB) (now : Int) (nodes : List (String × PyNode)) : StatsDB :=
  if nodes.isEmpty then db else
  let snapshot_ts := now
  let should_store_history : Bool := nodes_history_should_store db snapshot_ts
  let entries := nodes.filterMap snap_entry_of
  if entries.isEmpty then db else
  let nc := entries.foldl (fun nc e => tableEnsure nc e.node_id emptyNodeRow) db.node_counts
  let nc := entries.foldl (fun nc e => tableUpdate nc e.node_id (coalesce_update e)) nc
  let db := { db with node_counts := nc }
  if should_store_history then
    { db with node_history := db.node_history ++ entries.map (hist_row_of snapshot_ts),
              last_nodes_history_ts := some snapshot_ts }
  else db

/-- `StatsDB.record_mesh_event`: normalize the kind, bump the matching counter,
and append an `events` row named `"mesh_" + kind`. -/
def record_mesh_event (db : StatsDB) (now : Int) (event : String) (detail : Option String) : StatsDB :=
  let ev := pyLower (pyStrip event)
  if ev = "" then db else
  let detail_clean := match detail with
    | none => none
    | some d => if d = "" then none else clamp_str (some d) 600
  let db :=
    if ev = "connect" then incr_counter db "mesh_connect" 1
    else if ev = "disconnect" then incr_counter db "mesh_disconnect" 1
    else if ev = "error" then incr_counter db "mesh_error" 1
    else incr_counter db ("mesh_" ++ ev) 1
  _add_event db now ("mesh_" ++ ev) detail_clean

/-- `StatsDB.record_status_report`: the same throttle pattern as the node
history (store-global, tracked independently); the flattening of the report
into columns is kept abstract. -/
def record_status_report (db : StatsDB) (now : Int) (report : StatusReportPayload) : StatsDB :=
  let ts := now
  let throttled : Bool :=
    db.status_history_interval_sec > 0 &&
      (match db.last_status_history_ts with
       | some last_ts => decide (ts - last_ts < (db.status_history_interval_sec : Int))
       | none => false)
  if throttled then db
  else { db with status_reports := db.status_reports ++ [(ts, report)],
                 last_status_history_ts := some ts }

/-! ### The in-memory message ring buffer (`MeshService._on_receive`) -/

/-- `MeshService.__init__`: `self._max_messages = max(1, int(max_messages))`. -/
def init_max_messages (max_messages : Int) : Nat := (max 1 max_messages).toNat

/-- The ring-buffer part of `MeshService._on_receive`: append, then keep only
the last `max_messages` entries (`cache[-max_messages:]`). -/
def _append_message (max_messages : Nat) (cache : List Msg) (msg : Msg) : List Msg :=
  let cache := cache ++ [msg]
  if cache.length > max_messages then cache.drop (cache.length - max_messages) else cache

/-- `MeshService._on_receive` after decode: push into the bounded ring buffer
and forward to the stats store when one is attached. -/
def _on_receive (max_messages : Nat) (cache : List Msg) (stats_db : Option StatsDB)
    (now : Int) (msg : Msg) : List Msg × Option StatsDB :=
  (_append_message max_messages cache msg,
   match stats_db with
   | none => none
   | some db => some (record_message db now msg))

/-! ### StatsDB queries (`summary` and its `_get_*` internals) -/

/-- `StatsDB._get_hourly`: bucket rows with `hour >= since_hour`, hour-aligned,
ordered by hour ascending. -/
def _get_hourly (db : StatsDB) (since_epoch : Int) : List (Int × HourRow) :=
  let since_hour := hour_floor since_epoch
  sortedBy (fun a b => decide (a.1 ≤ b.1)) (db.hourly_counts.filter (fun p => decide (since_hour ≤ p.1)))

/-- The `sum(int(r.get("messages") or 0) for r in rows)` aggregations in `summary`. -/
def sum_messages (rows : List (Int × HourRow)) : Nat :=
  (rows.map (fun p => p.2.messages)).sum

/-- One entry of the `top_from` / `top_to` result lists. -/
structure TopEntry where
  id : String
  short : Option String
  long : Option String
  count : Nat
  lastRx : Option Int
  lastSnr : Option Int
  lastRssi : Option Int
deriving Repr, DecidableEq

/-- `StatsDB._get_top`: nodes ordered by `from_count`/`to_count` descending,
limited, zero-count rows skipped after the limit. -/
def _get_top (db : StatsDB) (kind : String) (limit : Nat) : List TopEntry :=
  let order_col : NodeRow → Nat := if kind = "from" then (fun r => r.from_count) else (fun r => r.to_count)
  let rows := (sortedBy (fun a b => decide (order_col b.2 ≤ order_col a.2)) db.node_counts).take limit
  rows.filterMap (fun p =>
    let c := order_col p.2
    if c = 0 then none else
    some ⟨p.1, p.2.short, p.2.long, c, p.2.last_rx, p.2.last_snr, p.2.last_rssi⟩)

/-- `StatsDB._expected_snapshots`. -/
def _expected_snapshots (db : StatsDB) (window_seconds : Nat) : Option Nat :=
  let interval := db.nodes_history_interval_sec
  if interval = 0 then none else some (max 1 (window_seconds / interval))

/-- `StatsDB._availability_pct` (the display rounding to one decimal is not modelled). -/
def _availability_pct (count : Nat) (expected : Option Nat) : Option Rat :=
  match expected with
  | none => none
  | some e =>
    if e = 0 then none else
    some (min 100 ((count : Rat) / (e : Rat) * 100))

/-- `StatsDB._node_history_seconds`. -/
def _node_history_seconds (db : StatsDB) (count : Nat) : Option Nat :=
  let interval := db.nodes_history_interval_sec
  if interval = 0 then none else some (count * interval)

/-- `GROUP BY node_id` with `COUNT(*)`, in first-appearance order. -/
def group_counts (keys : List String) : List (String × Nat) :=
  keys.foldl (fun acc k => dictSet acc k ((alookup acc k).getD 0 + 1)) []

/-- One entry of the `nodes_visible` result. -/
structure VisEntry where
  id : String
  short : Option String
  long : Option String
  snapshots : Nat
  seconds : Option Nat
  expectedSnapshots : Option Nat
  availabilityPct : Option Rat
deriving Repr, DecidableEq

/-- `StatsDB._get_node_visibility`. -/
def _get_node_visibility (db : StatsDB) (since_epoch : Int) (window_seconds : Nat) (limit : Nat) : List VisEntry :=
  let expected := _expected_snapshots db window_seconds
  let grouped := group_counts ((db.node_history.filter (fun r => decide (since_epoch ≤ r.ts))).map (fun r => r.node_id))
  let rows := (sortedBy (fun a b => decide (b.2 ≤ a.2)) grouped).take limit
  rows.filterMap (fun p =>
    if p.2 = 0 then none else
    some ⟨p.1, (alookup db.node_counts p.1).bind (fun r => r.short),
          (alookup db.node_counts p.1).bind (fun r => r.long),
          p.2, _node_history_seconds db p.2, expected, _availability_pct p.2 expected⟩)

/-- One entry of the `nodes_zero_hops` result. -/
structure ZeroHopEntry where
  id : String
  short : Option String
  long : Option String
  snapshots : Nat
  seconds : Option Nat
deriving Repr, DecidableEq

/-- `StatsDB._get_node_zero_hops`: same as visibility but only rows with
`hops_away = 0`. -/
def _get_node_zero_hops (db : StatsDB) (since_epoch : Int) (limit : Nat) : List ZeroHopEntry :=
  let grouped := group_counts ((db.node_history.filter (fun r =>
    decide (since_epoch ≤ r.ts) && r.hops_away == some 0)).map (fun r => r.node_id))
  let rows := (sortedBy (fun a b => decide (b.2 ≤ a.2)) grouped).take limit
  rows.filterMap (fun p =>
    if p.2 = 0 then none else
    some ⟨p.1, (alookup db.node_counts p.1).bind (fun r => r.short),
          (alookup db.node_counts p.1).bind (fun r => r.long),
          p.2, _node_history_seconds db p.2⟩)

/-- One entry of the `nodes_snr_stats` result. -/
structure SnrEntry where
  id : String
  short : Option String
  long : Option String
  minSnr : Option Int
  avgSnr : Option Rat
  maxSnr : Option Int
  samples : Nat
deriving Repr, DecidableEq

/-- `GROUP BY node_id` collecting the SNR samples per node, in first-appearance order. -/
def group_snrs (rows : List HistRow) : List (String × List Int) :=
  rows.foldl (fun acc r =>
    match r.snr with
    | none => acc
    | some s => dictSet acc r.node_id ((alookup acc r.node_id).getD [] ++ [s])) []

/-- `StatsDB._get_node_snr_stats`: min/avg/max/sample-count per node over
history rows with non-null SNR, ordered by samples then average, limited. -/
def _get_node_snr_stats (db : StatsDB) (since_epoch : Int) (limit : Nat) : List SnrEntry :=
  let grouped := group_snrs (db.node_history.filter (fun r => decide (since_epoch ≤ r.ts) && r.snr.isSome))
  let stats := grouped.map (fun p =>
    let samples : Nat := p.2.length
    ({ id := p.1,
       short := (alookup db.node_counts p.1).bind (fun r => r.short),
       long := (alookup db.node_counts p.1).bind (fun r => r.long),
       minSnr := p.2.min?,
       avgSnr := if samples = 0 then none else some ((p.2.map (fun z => (z : Rat))).sum / (samples : Rat)),
       maxSnr := p.2.max?,
       samples := samples } : SnrEntry))
  let rows := (sortedBy (fun a b =>
    if a.samples = b.samples then decide ((b.avgSnr.getD 0) ≤ (a.avgSnr.getD 0))
    else decide (b.samples ≤ a.samples)) stats).take limit
  rows.filter (fun e => decide (0 < e.samples))

/-- One entry of the ranked flakiness result. -/
structure FlakyEntry where
  id : String
  short : Option String
  long : Option String
  hopChanges : Nat
deriving Repr, DecidableEq

/-- The running state of the `for r in rows` loop of `_get_node_flaky`:
the `changes` and `prev` dicts. -/
abbrev FlakySt := List (String × Nat) × List (String × Int)

/-- One iteration of the `_get_node_flaky` row loop: rows with no hop count are
skipped; a change relative to the node previous hop count bumps `changes`. -/
def flaky_step (st : FlakySt) (r : HistRow) : FlakySt :=
  match r.hops_away with
  | none => st
  | some hops_val =>
    let changes := st.1
    let prev := st.2
    let changes := match alookup prev r.node_id with
      | some last => if hops_val ≠ last then dictSet changes r.node_id ((alookup changes r.node_id).getD 0 + 1) else changes
      | none => changes
    (changes, dictSet prev r.node_id hops_val)

/-- The `changes` dict produced by the `_get_node_flaky` row loop. -/
def flaky_changes (rows : List HistRow) : List (String × Nat) :=
  (rows.foldl flaky_step ([], [])).1

/-- The tail of `_get_node_flaky`: drop out early when no changes were seen,
rank by change count descending, cut to the limit, and join the names. -/
def flaky_output (node_counts : List (String × NodeRow)) (changes : List (String × Nat)) (limit : Nat) : List FlakyEntry :=
  if changes.isEmpty then [] else
  ((sortedBy (fun a b => decide (b.2 ≤ a.2)) changes).take limit).map (fun p =>
    ⟨p.1, (alookup node_counts p.1).bind (fun r => r.short),
     (alookup node_counts p.1).bind (fun r => r.long), p.2⟩)

/-- The SQL fetch of `_get_node_flaky`: history rows in the window, ordered by
`node_id, ts, id` (the sort is stable, so equal keys keep insertion/id order). -/
def flaky_rows (db : StatsDB) (since_epoch : Int) : List HistRow :=
  sortedBy (fun a b =>
    if a.node_id = b.node_id then decide (a.ts ≤ b.ts) else strLt a.node_id b.node_id)
    (db.node_history.filter (fun r => decide (since_epoch ≤ r.ts)))

/-- `StatsDB._get_node_flaky`. -/
def _get_node_flaky (db : StatsDB) (since_epoch : Int) (limit : Nat) : List FlakyEntry :=
  flaky_output db.node_counts (flaky_changes (flaky_rows db since_epoch)) limit

/-- `StatsDB._get_events`: the newest `limit` events, presented oldest-first. -/
def _get_events (db : StatsDB) (limit : Nat) : List EventRow :=
  ((db.events.reverse).take limit).reverse

/-- `StatsDB._get_app_counts`: app rows ordered by total descending. -/
def _get_app_counts (db : StatsDB) : List (String × AppRow) :=
  sortedBy (fun a b => decide (b.2.total ≤ a.2.total)) db.app_counts

/-- One entry of the `app_requests_to_me` result. -/
structure AppReqEntry where
  app : String
  from_id : String
  to_id : String
  count : Nat
  lastTs : Int
deriving Repr, DecidableEq

/-- `StatsDB._get_app_requests_to_me`: request edges addressed to the local
node (trimmed) or to `"^all"`, ordered by count then recency; edges whose
sender equals the raw `local_node_id` are skipped when the trimmed id is
non-empty. -/
def _get_app_requests_to_me (db : StatsDB) (local_node_id : Option String) : List AppReqEntry :=
  let key_match : (String × String × String) → Bool := fun k =>
    match local_node_id with
    | some l => if pyStrip l != "" then (k.2.2 == pyStrip l || k.2.2 == "^all") else k.2.2 == "^all"
    | none => k.2.2 == "^all"
  let rows := sortedBy (fun a b =>
      if a.2.count = b.2.count then decide (b.2.last_ts ≤ a.2.last_ts) else decide (b.2.count ≤ a.2.count))
    (db.app_requests.filter (fun p => key_match p.1))
  rows.filterMap (fun p =>
    let skip : Bool := match local_node_id with
      | some l => pyStrip l != "" && p.1.2.1 == l
      | none => false
    if skip then none else some ⟨p.1.1, p.1.2.1, p.1.2.2, p.2.count, p.2.last_ts⟩)

/-- One entry of the `app_requesters` result. -/
structure RequesterEntry where
  id : String
  short : Option String
  long : Option String
  count : Nat
  lastTs : Option Int
deriving Repr, DecidableEq

/-- `StatsDB._get_top_requesters`: request-flagged stored messages in the
window grouped by sender, minus the local node, ordered by count then recency. -/
def _get_top_requesters (db : StatsDB) (since_epoch : Int) (limit : Nat) (local_node_id : Option String) : List RequesterEntry :=
  let base := db.messages.filter (fun (m : MsgRow) =>
    decide (since_epoch ≤ m.rx_time) && m.from_id.isSome && (m.request_id.isSome || m.want_response == some 1))
  let base := match local_node_id with
    | some l => if pyStrip l != "" then base.filter (fun (m : MsgRow) => m.from_id != some (pyStrip l)) else base
    | none => base
  let grouped : List (String × (Nat × Int)) := base.foldl (fun acc m =>
    match m.from_id with
    | none => acc
    | some f =>
      match alookup acc f with
      | none => dictSet acc f (1, m.rx_time)
      | some pr => dictSet acc f (pr.1 + 1, max pr.2 m.rx_time)) []
  let rows := ((sortedBy (fun a b =>
      if a.2.1 = b.2.1 then decide (b.2.2 ≤ a.2.2) else decide (b.2.1 ≤ a.2.1)) grouped).take limit)
  rows.filterMap (fun p =>
    if p.2.1 = 0 then none else
    some ⟨p.1, (alookup db.node_counts p.1).bind (fun r => r.short),
          (alookup db.node_counts p.1).bind (fun r => r.long), p.2.1, some p.2.2⟩)

/-- The `StatsSummary` dataclass (`db_path` omitted: it is a filesystem detail). -/
structure StatsSummary where
  window_hours : Int
  generated_at : Int
  counters : List (String × Int)
  messages_last_hour : Nat
  messages_window : Nat
  hourly_window : List (Int × HourRow)
  top_from : List TopEntry
  top_to : List TopEntry
  nodes_window_days : Int
  nodes_history_interval_sec : Nat
  nodes_visible : List VisEntry
  nodes_zero_hops : List ZeroHopEntry
  nodes_snr_stats : List SnrEntry
  nodes_flaky : List FlakyEntry
  recent_events : List EventRow
  app_counts : List (String × AppRow)
  app_requests_to_me : List AppReqEntry
  app_requesters : List RequesterEntry
deriving Repr, DecidableEq

/-- `StatsDB.summary`. -/
def summary (db : StatsDB) (now : Int) (hours : Int) (top_limit : Int) (event_limit : Int)
    (local_node_id : Option String) (nodes_days : Int) : StatsSummary :=
  let hours := max 1 hours
  let top_limit := (max 1 top_limit).toNat
  let event_limit := (max 1 event_limit).toNat
  let nodes_days := max 1 nodes_days
  let since_window := now - hours * 3600
  let since_1h := now - 1 * 3600
  let since_nodes := now - nodes_days * 86400
  let window_seconds := (max 0 (now - since_nodes)).toNat
  let hourly_window := _get_hourly db since_window
  let hourly_1 := _get_hourly db since_1h
  { window_hours := hours,
    generated_at := now,
    counters := db.counters,
    messages_last_hour := sum_messages hourly_1,
    messages_window := sum_messages hourly_window,
    hourly_window := hourly_window,
    top_from := _get_top db "from" top_limit,
    top_to := _get_top db "to" top_limit,
    nodes_window_days := nodes_days,
    nodes_history_interval_sec := db.nodes_history_interval_sec,
    nodes_visible := _get_node_visibility db since_nodes window_seconds top_limit,
    nodes_zero_hops := _get_node_zero_hops db since_nodes top_limit,
    nodes_snr_stats := _get_node_snr_stats db since_nodes top_limit,
    nodes_flaky := _get_node_flaky db since_nodes top_limit,
    recent_events := _get_events db event_limit,
    app_counts := _get_app_counts db,
    app_requests_to_me := _get_app_requests_to_me db local_node_id,
    app_requesters := _get_top_requesters db since_nodes top_limit local_node_id }

/-! ### MeshService (`src/backend/mesh_service.py`) -/

/-- The `MeshConfig` dataclass. -/
structure MeshConfig where
  transport : String
  mesh_host : String
  mesh_port : Int
  mqtt_host : String
  mqtt_port : Int
  mqtt_username : Option String
  mqtt_password : Option String
  mqtt_tls : Bool
  mqtt_root_topic : Option String
deriving Repr, DecidableEq

/-- `mesh_service._normalize_transport`: `str(value or "tcp").strip().lower()`
must be a recognised transport name, else `ValueError`. -/
def _normalize_transport (value : Option String) : Except String String :=
  let base := match value with
    | none => "tcp"
    | some s => if s = "" then "tcp" else s
  let t := pyLower (pyStrip base)
  if t = "tcp" || t = "meshtastic-tcp" then Except.ok "tcp"
  else if t = "mqtt" || t = "meshtastic-mqtt" then Except.ok "mqtt"
  else Except.error "transport must be tcp or mqtt"

/-- The observable `MeshService` state for the claims: the current config, the
RadioLink handle (modelled by the target string it was opened against), the
connected flag, the last error, and the optionally attached stats store. -/
structure MeshState where
  cfg : MeshConfig
  iface : Option String
  connected : Bool
  last_error : Option String
  stats_db : Option StatsDB
deriving Repr, DecidableEq

/-- The keyword arguments of `MeshService.reconfigure`; `none` means the field
was not supplied (a partial update). -/
structure ReconfigureArgs where
  transport : Option String
  mesh_host : Option String
  mesh_port : Option Int
  mqtt_host : Option String
  mqtt_port : Option Int
  mqtt_username : Option String
  mqtt_password : Option String
  mqtt_tls : Option Bool
  mqtt_root_topic : Option String
deriving Repr, DecidableEq

/-- A `reconfigure` call that supplies nothing. -/
def noArgs : ReconfigureArgs := ⟨none, none, none, none, none, none, none, none, none⟩

/-- `next_transport` computation of `reconfigure`. -/
def next_transport_of (cfg : MeshConfig) (a : ReconfigureArgs) : Except String String :=
  match a.transport with
  | none => Except.ok cfg.transport
  | some t => _normalize_transport (some t)

/-- `next_mesh_host` computation of `reconfigure`: supplied hosts are stripped
and must be non-empty. -/
def next_mesh_host_of (cfg : MeshConfig) (a : ReconfigureArgs) : Except String String :=
  match a.mesh_host with
  | none => Except.ok cfg.mesh_host
  | some h =>
    let hc := pyStrip h
    if hc = "" then Except.error "meshHost must be non-empty" else Except.ok hc

/-- `next_mesh_port` computation of `reconfigure`: supplied ports must be in `1..65535`. -/
def next_mesh_port_of (cfg : MeshConfig) (a : ReconfigureArgs) : Except String Int :=
  match a.mesh_port with
  | none => Except.ok cfg.mesh_port
  | some p => if p ≤ 0 ∨ 65535 < p then Except.error "meshPort must be 1..65535" else Except.ok p

/-- `next_mqtt_host` computation of `reconfigure`. -/
def next_mqtt_host_of (cfg : MeshConfig) (a : ReconfigureArgs) : Except String String :=
  match a.mqtt_host with
  | none => Except.ok cfg.mqtt_host
  | some h =>
    let hc := pyStrip h
    if hc = "" then Except.error "mqttHost must be non-empty" else Except.ok hc

/-- `next_mqtt_port` computation of `reconfigure`. -/
def next_mqtt_port_of (cfg : MeshConfig) (a : ReconfigureArgs) : Except String Int :=
  match a.mqtt_port with
  | none => Except.ok cfg.mqtt_port
  | some p => if p ≤ 0 ∨ 65535 < p then Except.error "mqttPort must be 1..65535" else Except.ok p

/-- `next_mqtt_username`: a supplied username is stripped, empty means cleared. -/
def next_mqtt_username_of (cfg : MeshConfig) (a : ReconfigureArgs) : Option String :=
  match a.mqtt_username with
  | none => cfg.mqtt_username
  | some u => let uc := pyStrip u; if uc = "" then none else some uc

/-- `next_mqtt_password`: a supplied password is kept verbatim, empty means cleared. -/
def next_mqtt_password_of (cfg : MeshConfig) (a : ReconfigureArgs) : Option String :=
  match a.mqtt_password with
  | none => cfg.mqtt_password
  | some p => if p = "" then none else some p

/-- `next_mqtt_tls`. -/
def next_mqtt_tls_of (cfg : MeshConfig) (a : ReconfigureArgs) : Bool :=
  match a.mqtt_tls with
  | none => cfg.mqtt_tls
  | some b => b

/-- `next_mqtt_root_topic`. -/
def next_mqtt_root_topic_of (cfg : MeshConfig) (a : ReconfigureArgs) : Option String :=
  match a.mqtt_root_topic with
  | none => cfg.mqtt_root_topic
  | some t => let tc := pyStrip t; if tc = "" then none else some tc

/-- `MeshService._target_str`. -/
def _target_str (cfg : MeshConfig) : String :=
  if cfg.transport = "mqtt" then "mqtt " ++ cfg.mqtt_host ++ ":" ++ toString cfg.mqtt_port
  else "tcp " ++ cfg.mesh_host ++ ":" ++ toString cfg.mesh_port

/-- `MeshService._disconnect`: drop and close the handle, mark disconnected. -/
def _disconnect (st : MeshState) : MeshState :=
  { st with iface := none, connected := false }

/-- `MeshService._record_mesh_event`: forward to the stats store when attached
(exceptions from the store are swallowed; the model has none). -/
def _record_mesh_event_svc (st : MeshState) (now : Int) (event : String) (detail : Option String) : MeshState :=
  match st.stats_db with
  | none => st
  | some db => { st with stats_db := some (record_mesh_event db now event detail) }

/-- `MeshService.reconfigure`: validate every supplied field first (any
`ValueError` leaves the service untouched), then install the combined config
and, only when something actually changed, record a `disconnect` event with
detail `"reconfigure"` and force-close the handle. -/
def reconfigure (st : MeshState) (now : Int) (a : ReconfigureArgs) : Except String MeshState :=
  match next_transport_of st.cfg a with
  | Except.error e => Except.error e
  | Except.ok next_transport =>
  match next_mesh_host_of st.cfg a with
  | Except.error e => Except.error e
  | Except.ok next_mesh_host =>
  match next_mesh_port_of st.cfg a with
  | Except.error e => Except.error e
  | Except.ok next_mesh_port =>
  match next_mqtt_host_of st.cfg a with
  | Except.error e => Except.error e
  | Except.ok next_mqtt_host =>
  match next_mqtt_port_of st.cfg a with
  | Except.error e => Except.error e
  | Except.ok next_mqtt_port =>
  let next_mqtt_username := next_mqtt_username_of st.cfg a
  let next_mqtt_password := next_mqtt_password_of st.cfg a
  let next_mqtt_tls := next_mqtt_tls_of st.cfg a
  let next_mqtt_root_topic := next_mqtt_root_topic_of st.cfg a
  if next_transport = "mqtt" ∧ next_mqtt_host = "" then
    Except.error "mqttHost must be set when transport is mqtt"
  else
    let changed :=
      next_transport ≠ st.cfg.transport ∨ next_mesh_host ≠ st.cfg.mesh_host ∨
      next_mesh_port ≠ st.cfg.mesh_port ∨ next_mqtt_host ≠ st.cfg.mqtt_host ∨
      next_mqtt_port ≠ st.cfg.mqtt_port ∨ next_mqtt_username ≠ st.cfg.mqtt_username ∨
      next_mqtt_password ≠ st.cfg.mqtt_password ∨ next_mqtt_tls ≠ st.cfg.mqtt_tls ∨
      next_mqtt_root_topic ≠ st.cfg.mqtt_root_topic
    let new_cfg : MeshConfig := ⟨next_transport, next_mesh_host, next_mesh_port,
      next_mqtt_host, next_mqtt_port, next_mqtt_username, next_mqtt_password,
      next_mqtt_tls, next_mqtt_root_topic⟩
    let st1 := { st with cfg := new_cfg }
    if changed then
      Except.ok (_disconnect (_record_mesh_event_svc st1 now "disconnect" (some "reconfigure")))
    else Except.ok st1

/-- Python exception semantics at the call site: on a `ValueError` the
`MeshService` object is left exactly as it was. -/
def reconfigureRun (st : MeshState) (now : Int) (a : ReconfigureArgs) : MeshState :=
  match reconfigure st now a with
  | Except.ok st1 => st1
  | Except.error _ => st

/-- `MeshService._connect`: an existing handle is reused; otherwise a new one
is opened against the current configuration target. Returns the handle target. -/
def _connect (st : MeshState) : MeshState × String :=
  match st.iface with
  | some t => (st, t)
  | none => ({ st with iface := some (_target_str st.cfg) }, _target_str st.cfg)

/-- The forwarded `iface.sendText(...)` call (the per-library keyword fallback
of the Python `except TypeError` branch is transparent to the model). -/
structure SentText where
  text : String
  destinationId : Option String
  channelIndex : Option Int
deriving Repr, DecidableEq

/-- The truthy destination argument: Python `if to:`. -/
def dest_of (to_arg : Option String) : Option String :=
  match to_arg with
  | some t => if t = "" then none else some t
  | none => none

/-- `MeshService.send_text`: requires non-empty trimmed text and a live handle,
then forwards to the RadioLink; the channel index is `int(channel)` with no
further validation. -/
def send_text (iface_present : Bool) (text : Option String) (to_arg : Option String)
    (channel : Option Int) : Except String SentText :=
  let text := pyStrip (text.getD "")
  if text = "" then Except.error "text is required"
  else if !iface_present then Except.error "not connected to mesh"
  else Except.ok ⟨text, dest_of to_arg, channel⟩

/-! ### Status fetcher -/

/-- The TTL-cached status snapshot (`ok` flag, last report, status/error text,
fetch timestamp). -/
structure StatusSnapshotState where
  ok : Bool
  report : Option StatusReportPayload
  status : Option String
  error : Option String
  fetchedAt : Option Int
deriving Repr, DecidableEq

/-- The status-fetcher state embedded in the connection manager. -/
structure StatusFetcher where
  ttl_sec : Int
  cache : StatusSnapshotState
  stats_db : Option StatsDB
deriving Repr, DecidableEq

/-- Modelled from the spec: `MeshService.get_status_snapshot` is referenced by
`app.py (api_status)` and by `tests/test_mesh_service.py` but its definition is
not under `src/`; this follows spec section 4.1 (Status Fetcher). If the last
successful fetch is younger than the TTL and `force` is false, the cached
snapshot is returned without fetching; otherwise the blocking fetch result
(passed in as `fetch_result`) either replaces the cache and is forwarded to the
stats store for throttled persistence, or, on failure, clears the `ok` flag
while preserving the last good report. -/
def get_status_snapshot (f : StatusFetcher) (force : Bool) (now : Int)
    (fetch_result : Except String (Option String × StatusReportPayload)) :
    StatusFetcher × StatusSnapshotState :=
  let fresh : Bool := f.cache.ok &&
    (match f.cache.fetchedAt with
     | some t => decide (now - t < f.ttl_sec)
     | none => false)
  if !force && fresh then (f, f.cache)
  else
    match fetch_result with
    | Except.ok (status_text, report) =>
      let cache : StatusSnapshotState := ⟨true, some report, status_text, none, some now⟩
      let db := match f.stats_db with
        | none => none
        | some db => some (record_status_report db now report)
      ({ f with cache := cache, stats_db := db }, cache)
    | Except.error e =>
      let cache : StatusSnapshotState :=
        { f.cache with ok := false, error := some e, status := none }
      ({ f with cache := cache }, cache)

/-! ## Theorems -/

/-! ### C3: ring buffer bound -/

theorem append_message_length_le (cap : Nat) (cache : List Msg) (msg : Msg) :
    (_append_message cap cache msg).length ≤ cap ∨ (cache ++ [msg]).length ≤ cap := by
  unfold _append_message
  dsimp only
  split
  · left
    rw [List.length_drop]
    omega
  · right
    omega

theorem append_message_length_le_cap (cap : Nat) (cache : List Msg) (msg : Msg) :
    (_append_message cap cache msg).length ≤ cap := by
  unfold _append_message
  dsimp only
  split
  · rw [List.length_drop]
    omega
  · next h => omega

theorem append_message_getLast (cap : Nat) (hcap : 1 ≤ cap) (cache : List Msg) (msg : Msg) :
    (_append_message cap cache msg).getLast? = some msg := by
  unfold _append_message
  dsimp only
  split
  · next h =>
    have hle : (cache ++ [msg]).length - cap ≤ cache.length := by
      simp only [List.length_append, List.length_singleton]
      omega
    rw [List.drop_append_of_le_length hle, List.getLast?_concat]
  · exact List.getLast?_concat cache

theorem append_message_suffix (cap : Nat) (cache : List Msg) (msg : Msg) :
    _append_message cap cache msg <:+ cache ++ [msg] := by
  unfold _append_message
  dsimp only
  split
  · exact List.drop_suffix _ _
  · exact List.suffix_refl _

theorem init_max_messages_pos (m : Int) : 1 ≤ init_max_messages m := by
  unfold init_max_messages
  simp

theorem foldl_append_message_length (cap : Nat) :
    ∀ (msgs : List Msg) (start : List Msg), start.length ≤ cap →
      (msgs.foldl (_append_message cap) start).length ≤ cap := by
  intro msgs
  induction msgs with
  | nil => intro start h; simpa using h
  | cons m rest ih =>
    intro start _
    exact ih _ (append_message_length_le_cap cap start m)

/-- C3: for every sequence of packets pushed through `_on_receive`, the
in-memory ring buffer never exceeds the configured maximum
(`max(1, max_messages)` entries, as clamped in `MeshService.__init__`); each
append keeps only a suffix of the appended list (so only the oldest entries can
be dropped) and the newly appended message is always retained as the newest
entry. -/
theorem c3_ring_buffer (max_messages : Int) :
    (∀ msgs : List Msg,
      (msgs.foldl (_append_message (init_max_messages max_messages)) []).length
        ≤ init_max_messages max_messages) ∧
    (∀ (cache : List Msg) (msg : Msg),
      (_append_message (init_max_messages max_messages) cache msg).getLast? = some msg) ∧
    (∀ (cache : List Msg) (msg : Msg),
      _append_message (init_max_messages max_messages) cache msg <:+ cache ++ [msg]) := by
  refine ⟨?_, ?_, ?_⟩
  · intro msgs
    exact foldl_append_message_length _ msgs [] (by simp)
  · intro cache msg
    exact append_message_getLast _ (init_max_messages_pos max_messages) cache msg
  · intro cache msg
    exact append_message_suffix _ cache msg

/-! ### C7: send_text contract -/

/-- C7 counterexample: `send_text` does **not** reject a negative channel. With
a live handle, `send_text("hi", channel=-1)` succeeds and forwards
`channelIndex = -1` to the RadioLink, whereas the claim says every channel that
is not a non-negative integer is rejected (the `>= 0` check lives in the HTTP
route `api_send`, not in `MeshService.send_text`). -/
theorem c7_counterexample :
    send_text true (some "hi") none (some (-1)) = Except.ok ⟨"hi", none, some (-1)⟩ := by
  rfl

/-- C7 (amended): `send_text` raises for every text that is empty after
trimming, raises a not-connected error whenever no handle exists, and otherwise
forwards the trimmed text, the truthy destination, and the channel index to the
RadioLink unchanged — with no non-negativity check on the channel (that check
is performed by the HTTP route layer). -/
theorem c7_send_text_contract :
    (∀ (iface_present : Bool) (text to_arg : Option String) (ch : Option Int),
        pyStrip (text.getD "") = "" →
        send_text iface_present text to_arg ch = Except.error "text is required") ∧
    (∀ (text to_arg : Option String) (ch : Option Int),
        pyStrip (text.getD "") ≠ "" →
        send_text false text to_arg ch = Except.error "not connected to mesh") ∧
    (∀ (text to_arg : Option String) (ch : Option Int),
        pyStrip (text.getD "") ≠ "" →
        send_text true text to_arg ch = Except.ok ⟨pyStrip (text.getD ""), dest_of to_arg, ch⟩) := by
  refine ⟨?_, ?_, ?_⟩
  · intro iface_present text to_arg ch h
    unfold send_text
    simp [h]
  · intro text to_arg ch h
    unfold send_text
    simp [h]
  · intro text to_arg ch h
    unfold send_text
    simp [h]

/-- Witness for C7 (amended) at concrete inputs: whitespace-only text is
rejected, non-empty text without a handle is rejected, and a connected send
forwards the trimmed text with destination and channel. -/
theorem c7_send_text_contract_witness :
    (pyStrip ((some "  " : Option String).getD "") = "" ∧
      send_text true (some "  ") none (some 2) = Except.error "text is required") ∧
    (pyStrip ((some "hi" : Option String).getD "") ≠ "" ∧
      send_text false (some "hi") none none = Except.error "not connected to mesh") ∧
    send_text true (some " hi ") (some "!x") (some 0) = Except.ok ⟨"hi", some "!x", some 0⟩ := by
  refine ⟨⟨by decide, c7_send_text_contract.1 true (some "  ") none (some 2) (by decide)⟩,
         ⟨by decide, c7_send_text_contract.2.1 (some "hi") none none (by decide)⟩, ?_⟩
  have h := c7_send_text_contract.2.2 (some " hi ") (some "!x") (some 0) (by decide)
  rw [h]
  rfl

/-! ### C6: self-request exclusion -/

/-- The claim C6 example message with a whitespace-only sender id. -/
def msgWhitespaceSender : Msg :=
  { emptyMsg with rxTime := some 100, fromId := some "  ", toId := some "^all",
                  requestId := some 1, app := some "POSITION_APP" }

/-- C6 counterexample: the self-request exclusion compares against the local id
only when the *trimmed* local id is non-empty. With the whitespace-only sender
`"  "`, `record_message({fromId: "  ", toId: "^all", requestId: 1, app:
"POSITION_APP"})` followed by `summary(local_node_id="  ")` lists the edge
`("  ", "^all")` whose sender **is** the local id, contradicting the claim
quantified over every sender. -/
theorem c6_counterexample :
    ((summary (record_message emptyStatsDB 100 msgWhitespaceSender) 200 24 8 12 (some "  ") 7).app_requests_to_me).map
        (fun e => (e.from_id, e.to_id)) = [("  ", "^all")] := by
  decide

/-- C6 (amended): `summary.app_requests_to_me` is exactly
`_get_app_requests_to_me`, and whenever the local node id is non-empty after
trimming, no listed request edge has the local node itself as sender — even
edges addressed to the local id or to the broadcast sentinel `"^all"` are
filtered out when their sender equals the local id. -/
theorem c6_self_request_exclusion :
    (∀ (db : StatsDB) (now hours tl el nd : Int) (l : String),
        (summary db now hours tl el (some l) nd).app_requests_to_me
          = _get_app_requests_to_me db (some l)) ∧
    (∀ (db : StatsDB) (l : String), pyStrip l ≠ "" →
        ∀ e ∈ _get_app_requests_to_me db (some l), e.from_id ≠ l) := by
  constructor
  · intro db now hours tl el nd l
    rfl
  · intro db l hl e he
    unfold _get_app_requests_to_me at he
    simp only [List.mem_filterMap] at he
    obtain ⟨p, hp, hsome⟩ := he
    by_cases hskip : (pyStrip l != "" && p.1.2.1 == l) = true
    · simp only [hskip, if_pos] at hsome
      cases hsome
    · simp only [hskip, if_neg, Bool.not_eq_true] at hsome
      injection hsome with hsome
      subst hsome
      simp only [Bool.and_eq_true, bne_iff_ne, beq_iff_eq, not_and] at hskip
      intro hfrom
      exact (hskip hl) hfrom

/-- Witness for C6 (amended) at the claim example: after
`record_message({fromId: "!a", toId: "^all", requestId: 1, app: "POSITION_APP"})`,
`summary(local_node_id="!a")` lists no edge whose sender is `"!a"` — in
particular not `("!a", "^all")`. -/
theorem c6_self_request_exclusion_witness :
    pyStrip "!a" ≠ "" ∧
    (∀ e ∈ _get_app_requests_to_me
        (record_message emptyStatsDB 100
          { emptyMsg with rxTime := some 100, fromId := some "!a", toId := some "^all",
                          requestId := some 1, app := some "POSITION_APP" }) (some "!a"),
      e.from_id ≠ "!a") :=
  ⟨by decide, c6_self_request_exclusion.2
      (record_message emptyStatsDB 100
        { emptyMsg with rxTime := some 100, fromId := some "!a", toId := some "^all",
                        requestId := some 1, app := some "POSITION_APP" }) "!a" (by decide)⟩

/-! ### C9: TTL-cached status fetch (spec-modelled) -/

/-- C9: when the cached fetch is ok, timestamped, and younger than the TTL and
`force` is false, `get_status_snapshot` returns the cached snapshot and touches
nothing; in **every** other situation — `force` is true, or the cache is not
ok, or it was never fetched, or the last fetch is at least the TTL old (the
TTL-expiry case, also with `force = false`) — the blocking fetch runs and, on
success, the cache is replaced with the fresh report and the report is
forwarded to the stats store via `record_status_report`, whose store-global
throttle drops a write that comes less than the configured interval after the
previous one. -/
theorem c9_status_snapshot :
    (∀ (f : StatusFetcher) (now t : Int) (fr : Except String (Option String × StatusReportPayload)),
        f.cache.ok = true → f.cache.fetchedAt = some t → now - t < f.ttl_sec →
        get_status_snapshot f false now fr = (f, f.cache)) ∧
    (∀ (f : StatusFetcher) (force : Bool) (now : Int) (s : Option String)
        (r : StatusReportPayload) (db : StatsDB),
        (force = true ∨ f.cache.ok = false ∨ f.cache.fetchedAt = none ∨
          (∃ t, f.cache.fetchedAt = some t ∧ f.ttl_sec ≤ now - t)) →
        f.stats_db = some db →
        get_status_snapshot f force now (Except.ok (s, r)) =
          ({ f with cache := ⟨true, some r, s, none, some now⟩,
                    stats_db := some (record_status_report db now r) },
           ⟨true, some r, s, none, some now⟩)) ∧
    (∀ (db : StatsDB) (t0 t1 : Int) (r : StatusReportPayload),
        0 < db.status_history_interval_sec →
        db.last_status_history_ts = some t0 →
        t1 - t0 < (db.status_history_interval_sec : Int) →
        record_status_report db t1 r = db) := by
  refine ⟨?_, ?_, ?_⟩
  · intro f now t fr hok hts httl
    unfold get_status_snapshot
    simp [hok, hts, httl]
  · intro f force now s r db hstale hdb
    unfold get_status_snapshot
    rcases hstale with hforce | hok | hnone | ⟨t, hts, httl⟩
    · subst hforce
      simp [hdb]
    · simp [hok, hdb]
    · simp [hnone, hdb]
    · have hlt : ¬(now - t < f.ttl_sec) := not_lt.mpr httl
      simp [hts, hlt, hdb]
  · intro db t0 t1 r hint hlast hclose
    unfold record_status_report
    simp [hlast, hint, hclose]

/-- Witness for C9 at concrete inputs: a fresh cache is returned unchanged
without consuming the fetch; an **ok cache whose TTL has expired** (fetched at
100, TTL 5, queried at 105 with `force = false`) is refetched, replacing the
cache and persisting; a forced fetch on a not-ok cache does the same; and a
second persist 10s after the first with a 60s interval writes nothing. -/
theorem c9_status_snapshot_witness :
    (let f : StatusFetcher := ⟨5, ⟨true, some ⟨"r0"⟩, some "ok", none, some 100⟩, some emptyStatsDB⟩
     get_status_snapshot f false 102 (Except.error "unused") = (f, f.cache)) ∧
    (let f : StatusFetcher := ⟨5, ⟨true, some ⟨"r0"⟩, some "ok", none, some 100⟩, some emptyStatsDB⟩
     get_status_snapshot f false 105 (Except.ok (some "ok", ⟨"r1"⟩)) =
       ({ f with cache := ⟨true, some ⟨"r1"⟩, some "ok", none, some 105⟩,
                 stats_db := some (record_status_report emptyStatsDB 105 ⟨"r1"⟩) },
        ⟨true, some ⟨"r1"⟩, some "ok", none, some 105⟩)) ∧
    (let f : StatusFetcher := ⟨5, ⟨false, none, none, none, none⟩, some emptyStatsDB⟩
     get_status_snapshot f true 100 (Except.ok (some "ok", ⟨"r1"⟩)) =
       ({ f with cache := ⟨true, some ⟨"r1"⟩, some "ok", none, some 100⟩,
                 stats_db := some (record_status_report emptyStatsDB 100 ⟨"r1"⟩) },
        ⟨true, some ⟨"r1"⟩, some "ok", none, some 100⟩)) ∧
    (let db1 := record_status_report emptyStatsDB 100 ⟨"r1"⟩
     record_status_report db1 110 ⟨"r2"⟩ = db1) := by
  refine ⟨?_, ?_, ?_, ?_⟩
  · exact c9_status_snapshot.1 _ 102 100 (Except.error "unused") (by decide) (by decide) (by decide)
  · exact c9_status_snapshot.2.1 _ false 105 (some "ok") ⟨"r1"⟩ emptyStatsDB
      (Or.inr (Or.inr (Or.inr ⟨100, rfl, by decide⟩))) (by decide)
  · exact c9_status_snapshot.2.1 _ true 100 (some "ok") ⟨"r1"⟩ emptyStatsDB
      (Or.inl rfl) (by decide)
  · exact c9_status_snapshot.2.2 (record_status_report emptyStatsDB 100 ⟨"r1"⟩) 100 110 ⟨"r2"⟩
      (by decide) (by decide) (by decide)

/-! ### C4: store-global node-history throttle -/

theorem length_filterMap_all_some {γ : Type u} {δ : Type v} (f : γ → Option δ) :
    ∀ l : List γ, (∀ x ∈ l, (f x).isSome) → (l.filterMap f).length = l.length := by
  intro l
  induction l with
  | nil => simp
  | cons a t ih =>
    intro h
    have ha := h a (List.mem_cons_self a t)
    cases hfa : f a with
    | none => rw [hfa] at ha; simp at ha
    | some b =>
      rw [List.filterMap_cons, hfa]
      simp only [List.length_cons]
      rw [ih (fun x hx => h x (List.mem_cons_of_mem a hx))]

theorem snap_entry_of_isSome (p : String × PyNode) (h : p.1 ≠ "") :
    (snap_entry_of p).isSome := by
  unfold snap_entry_of
  simp [h]

/-- When the store-global throttle rejects (interval positive, last write less
than the interval before `t1`), a snapshot call appends no history row and
leaves the last-write timestamp alone, regardless of the node set. -/
theorem record_nodes_snapshot_throttled (db1 : StatsDB) (t0 t1 : Int)
    (nodes2 : List (String × PyNode))
    (hint : 0 < db1.nodes_history_interval_sec)
    (hlast : db1.last_nodes_history_ts = some t0)
    (hclose : t1 - t0 < (db1.nodes_history_interval_sec : Int)) :
    (record_nodes_snapshot db1 t1 nodes2).node_history = db1.node_history ∧
    (record_nodes_snapshot db1 t1 nodes2).last_nodes_history_ts = some t0 := by
  have hstore : nodes_history_should_store db1 t1 = false := by
    unfold nodes_history_should_store
    rw [hlast]
    simp [hint, hclose]
  unfold record_nodes_snapshot
  cases h2 : nodes2.isEmpty with
  | true => simp [hlast]
  | false =>
    simp only [Bool.false_eq_true, if_false, hstore]
    cases he2 : (nodes2.filterMap snap_entry_of).isEmpty with
    | true => simp [hlast]
    | false => simp [hlast]

/-- C4: with a positive sampling interval and no previous history write, a
first snapshot writes exactly one `node_history` row per node and moves the
single store-global timestamp; any second snapshot less than the interval later
— over the *same or any other* node set (the throttle is store-global, not
per node) — appends no history row and leaves the timestamp alone. -/
theorem c4_history_throttle (db : StatsDB) (t0 t1 : Int) (nodes : List (String × PyNode))
    (hint : 0 < db.nodes_history_interval_sec)
    (hlast : db.last_nodes_history_ts = none)
    (hne : nodes ≠ [])
    (hids : ∀ p ∈ nodes, p.1 ≠ "")
    (hclose : t1 - t0 < (db.nodes_history_interval_sec : Int)) :
    (record_nodes_snapshot db t0 nodes).node_history
        = db.node_history ++ (nodes.filterMap snap_entry_of).map (hist_row_of t0) ∧
    ((record_nodes_snapshot db t0 nodes).node_history).length
        = db.node_history.length + nodes.length ∧
    (record_nodes_snapshot db t0 nodes).last_nodes_history_ts = some t0 ∧
    (∀ nodes2 : List (String × PyNode),
      (record_nodes_snapshot (record_nodes_snapshot db t0 nodes) t1 nodes2).node_history
          = (record_nodes_snapshot db t0 nodes).node_history ∧
      (record_nodes_snapshot (record_nodes_snapshot db t0 nodes) t1 nodes2).last_nodes_history_ts
          = some t0) := by
  have hne' : nodes.isEmpty = false := by
    cases nodes with
    | nil => exact absurd rfl hne
    | cons a l => rfl
  have hent : (nodes.filterMap snap_entry_of).length = nodes.length :=
    length_filterMap_all_some snap_entry_of nodes (fun p hp => snap_entry_of_isSome p (hids p hp))
  have hentne : (nodes.filterMap snap_entry_of).isEmpty = false := by
    cases hfe : nodes.filterMap snap_entry_of with
    | nil =>
      rw [hfe] at hent
      simp only [List.length_nil] at hent
      cases nodes with
      | nil => exact absurd rfl hne
      | cons a l => simp at hent
    | cons a l => rfl
  have hstore : nodes_history_should_store db t0 = true := by
    unfold nodes_history_should_store
    rw [hlast]
    simp [hint]
  have hmain : record_nodes_snapshot db t0 nodes =
      { db with
          node_counts :=
            (nodes.filterMap snap_entry_of).foldl
              (fun nc e => tableUpdate nc e.node_id (coalesce_update e))
              ((nodes.filterMap snap_entry_of).foldl
                (fun nc e => tableEnsure nc e.node_id emptyNodeRow) db.node_counts),
          node_history := db.node_history ++ (nodes.filterMap snap_entry_of).map (hist_row_of t0),
          last_nodes_history_ts := some t0 } := by
    unfold record_nodes_snapshot
    rw [hne']
    simp only [Bool.false_eq_true, if_false, hentne, hstore, if_true]
  have hint1 : 0 < (record_nodes_snapshot db t0 nodes).nodes_history_interval_sec := by
    rw [hmain]
    exact hint
  have hlast1 : (record_nodes_snapshot db t0 nodes).last_nodes_history_ts = some t0 := by
    rw [hmain]
  have hclose1 : t1 - t0 < ((record_nodes_snapshot db t0 nodes).nodes_history_interval_sec : Int) := by
    rw [hmain]
    exact hclose
  refine ⟨by rw [hmain], ?_, hlast1, ?_⟩
  · rw [hmain]
    simp only [List.length_append, List.length_map, hent]
  · intro nodes2
    exact record_nodes_snapshot_throttled (record_nodes_snapshot db t0 nodes) t0 t1 nodes2
      hint1 hlast1 hclose1

/-- A concrete snapshot node used by witnesses. -/
def pyNodeEx : PyNode :=
  ⟨some ⟨some "S1", some "Node One", some "CLIENT", some "TBEAM"⟩, some 1, some 999, some 1⟩

/-- Witness for C4 at concrete inputs: a fresh store with a 60s interval,
snapshots at t=1000 and t=1001 over `{"!n1": ...}`. -/
theorem c4_history_throttle_witness :
    (0 < (StatsDB.init 60 60).nodes_history_interval_sec ∧
     (StatsDB.init 60 60).last_nodes_history_ts = none ∧
     ([("!n1", pyNodeEx)] : List (String × PyNode)) ≠ [] ∧
     ((1001 : Int) - 1000 < ((StatsDB.init 60 60).nodes_history_interval_sec : Int))) ∧
    ((record_nodes_snapshot (StatsDB.init 60 60) 1000 [("!n1", pyNodeEx)]).node_history).length
        = 0 + 1 ∧
    (∀ nodes2 : List (String × PyNode),
      (record_nodes_snapshot (record_nodes_snapshot (StatsDB.init 60 60) 1000 [("!n1", pyNodeEx)]) 1001 nodes2).node_history
          = (record_nodes_snapshot (StatsDB.init 60 60) 1000 [("!n1", pyNodeEx)]).node_history ∧
      (record_nodes_snapshot (record_nodes_snapshot (StatsDB.init 60 60) 1000 [("!n1", pyNodeEx)]) 1001 nodes2).last_nodes_history_ts
          = some 1000) := by
  have h := c4_history_throttle (StatsDB.init 60 60) 1000 1001 [("!n1", pyNodeEx)]
    (by decide) (by decide) (by decide) (by decide) (by decide)
  refine ⟨⟨by decide, by decide, by decide, by decide⟩, ?_, h.2.2.2⟩
  rw [h.2.1]
  decide

/-! ### C10: reconfigure is atomic with respect to validation errors -/

/-- C10: every validation failure in `reconfigure` happens before any state is
installed, so a failing call leaves the service exactly as it was (config,
handle, events); and each of the invalid-input classes named by the claim —
whitespace-only host, port outside `1..65535` (mesh or mqtt), an unrecognised
transport, and the mqtt transport without an mqtt host — makes the call raise
rather than succeed. -/
theorem c10_reconfigure_atomic :
    (∀ (st : MeshState) (now : Int) (a : ReconfigureArgs) (e : String),
        reconfigure st now a = Except.error e → reconfigureRun st now a = st) ∧
    (∀ (st : MeshState) (now : Int) (a : ReconfigureArgs) (h : String),
        a.mesh_host = some h → pyStrip h = "" →
        ∀ st1, reconfigure st now a ≠ Except.ok st1) ∧
    (∀ (st : MeshState) (now : Int) (a : ReconfigureArgs) (p : Int),
        a.mesh_port = some p → (p ≤ 0 ∨ 65535 < p) →
        ∀ st1, reconfigure st now a ≠ Except.ok st1) ∧
    (∀ (st : MeshState) (now : Int) (a : ReconfigureArgs) (p : Int),
        a.mqtt_port = some p → (p ≤ 0 ∨ 65535 < p) →
        ∀ st1, reconfigure st now a ≠ Except.ok st1) ∧
    (∀ (st : MeshState) (now : Int) (a : ReconfigureArgs) (t e0 : String),
        a.transport = some t → _normalize_transport (some t) = Except.error e0 →
        ∀ st1, reconfigure st now a ≠ Except.ok st1) ∧
    (∀ (st : MeshState) (now : Int) (a : ReconfigureArgs),
        a.transport = some "mqtt" → a.mqtt_host = none → st.cfg.mqtt_host = "" →
        ∀ st1, reconfigure st now a ≠ Except.ok st1) := by
  refine ⟨?_, ?_, ?_, ?_, ?_, ?_⟩
  · intro st now a e herr
    unfold reconfigureRun
    rw [herr]
  · intro st now a h hm hs st1 hok
    have hH : next_mesh_host_of st.cfg a = Except.error "meshHost must be non-empty" := by
      unfold next_mesh_host_of
      rw [hm]
      simp [hs]
    unfold reconfigure at hok
    repeat' split at hok
    all_goals simp_all
  · intro st now a p hm hrange st1 hok
    have hP : next_mesh_port_of st.cfg a = Except.error "meshPort must be 1..65535" := by
      unfold next_mesh_port_of
      rw [hm]
      simp [hrange]
    unfold reconfigure at hok
    repeat' split at hok
    all_goals simp_all
  · intro st now a p hm hrange st1 hok
    have hQP : next_mqtt_port_of st.cfg a = Except.error "mqttPort must be 1..65535" := by
      unfold next_mqtt_port_of
      rw [hm]
      simp [hrange]
    unfold reconfigure at hok
    repeat' split at hok
    all_goals simp_all
  · intro st now a t e0 ht hnorm st1 hok
    have hT : next_transport_of st.cfg a = Except.error e0 := by
      unfold next_transport_of
      rw [ht]
      exact hnorm
    unfold reconfigure at hok
    repeat' split at hok
    all_goals simp_all
  · intro st now a ht hqh hcfg st1 hok
    have hT : next_transport_of st.cfg a = Except.ok "mqtt" := by
      unfold next_transport_of
      rw [ht]
      rfl
    have hQH : next_mqtt_host_of st.cfg a = Except.ok "" := by
      unfold next_mqtt_host_of
      rw [hqh, hcfg]
    unfold reconfigure at hok
    repeat' split at hok
    all_goals simp_all

/-- A normalized example service state used by the reconfigure witnesses. -/
def meshStateEx : MeshState :=
  ⟨⟨"tcp", "mesh.local", 4403, "mqtt.meshtastic.org", 1883, none, none, false, none⟩,
   some "tcp mesh.local:4403", true, none, some emptyStatsDB⟩

/-- Witness for C10 at concrete inputs: a whitespace-only host, an
out-of-range port, and a bad transport each raise and leave the state (config,
handle, events) untouched. -/
theorem c10_reconfigure_atomic_witness :
    (reconfigure meshStateEx 5 { noArgs with mesh_host := some "   " }
        = Except.error "meshHost must be non-empty" ∧
      reconfigureRun meshStateEx 5 { noArgs with mesh_host := some "   " } = meshStateEx ∧
      (∀ st1, reconfigure meshStateEx 5 { noArgs with mesh_host := some "   " } ≠ Except.ok st1)) ∧
    (∀ st1, reconfigure meshStateEx 5 { noArgs with mesh_port := some 70000 } ≠ Except.ok st1) ∧
    (∀ st1, reconfigure meshStateEx 5 { noArgs with transport := some "bogus" } ≠ Except.ok st1) := by
  refine ⟨⟨by rfl, ?_, ?_⟩, ?_, ?_⟩
  · exact c10_reconfigure_atomic.1 meshStateEx 5 _ "meshHost must be non-empty" (by rfl)
  · exact c10_reconfigure_atomic.2.1 meshStateEx 5 _ "   " rfl (by decide)
  · exact c10_reconfigure_atomic.2.2.1 meshStateEx 5 _ 70000 rfl (by decide)
  · exact c10_reconfigure_atomic.2.2.2.2.1 meshStateEx 5 _ "bogus"
      "transport must be tcp or mqtt" rfl (by rfl)

/-! ### C2: reconfigure no-op vs forced reconnect -/

/-- The invariants `MeshService.__init__`/`reconfigure` maintain on the stored
config: normalized transport, stripped hosts, ports in range, a non-empty mqtt
host, and optional fields that are `None` or stripped non-empty. -/
abbrev MeshConfig.Normalized (cfg : MeshConfig) : Prop :=
  (cfg.transport = "tcp" ∨ cfg.transport = "mqtt") ∧
  pyStrip cfg.mesh_host = cfg.mesh_host ∧
  (1 ≤ cfg.mesh_port ∧ cfg.mesh_port ≤ 65535) ∧
  (pyStrip cfg.mqtt_host = cfg.mqtt_host ∧ cfg.mqtt_host ≠ "") ∧
  (1 ≤ cfg.mqtt_port ∧ cfg.mqtt_port ≤ 65535) ∧
  (match cfg.mqtt_username with | none => True | some u => pyStrip u = u ∧ u ≠ "") ∧
  (match cfg.mqtt_password with | none => True | some p => p ≠ "") ∧
  (match cfg.mqtt_root_topic with | none => True | some t => pyStrip t = t ∧ t ≠ "")

/-- "Every supplied field equals the current configuration": each non-`none`
argument of the `reconfigure` call carries exactly the stored value. -/
abbrev suppliedEqual (a : ReconfigureArgs) (cfg : MeshConfig) : Prop :=
  (match a.transport with | none => True | some t => t = cfg.transport) ∧
  (match a.mesh_host with | none => True | some h => h = cfg.mesh_host) ∧
  (match a.mesh_port with | none => True | some p => p = cfg.mesh_port) ∧
  (match a.mqtt_host with | none => True | some h => h = cfg.mqtt_host) ∧
  (match a.mqtt_port with | none => True | some p => p = cfg.mqtt_port) ∧
  (match a.mqtt_username with | none => True | some u => cfg.mqtt_username = some u) ∧
  (match a.mqtt_password with | none => True | some p => cfg.mqtt_password = some p) ∧
  (match a.mqtt_tls with | none => True | some b => b = cfg.mqtt_tls) ∧
  (match a.mqtt_root_topic with | none => True | some t => cfg.mqtt_root_topic = some t)

theorem record_mesh_event_disconnect_events (db : StatsDB) (now : Int) :
    (record_mesh_event db now "disconnect" (some "reconfigure")).events
      = db.events ++ [⟨now, "mesh_disconnect", some "reconfigure"⟩] := rfl

/-- C2: on a normalized configuration, (a) a valid `reconfigure` call whose
supplied fields all equal the current configuration is a strict no-op — the
returned state is the old state itself, so no disconnect event is recorded and
the live handle is not closed; and (b) every successful `reconfigure` call
whose installed config differs in the mesh host or port force-closes the
handle, records a `disconnect` event with detail `"reconfigure"` in the
attached stats store, and leaves the worker `_connect` to reopen against the
new target. -/
theorem c2_reconfigure_contract (st : MeshState) (hN : st.cfg.Normalized) :
    (∀ (now : Int) (a : ReconfigureArgs),
        suppliedEqual a st.cfg →
        (a.mesh_host.isSome → st.cfg.mesh_host ≠ "") →
        reconfigure st now a = Except.ok st) ∧
    (∀ (now : Int) (a : ReconfigureArgs) (st1 : MeshState) (db : StatsDB),
        st.stats_db = some db →
        reconfigure st now a = Except.ok st1 →
        (st1.cfg.mesh_host ≠ st.cfg.mesh_host ∨ st1.cfg.mesh_port ≠ st.cfg.mesh_port) →
        st1.iface = none ∧
        st1.stats_db = some (record_mesh_event db now "disconnect" (some "reconfigure")) ∧
        (∃ db1, st1.stats_db = some db1 ∧
          db1.events = db.events ++ [⟨now, "mesh_disconnect", some "reconfigure"⟩]) ∧
        (_connect st1).2 = _target_str st1.cfg) := by
  obtain ⟨hNt, hNh, hNp, ⟨hNqhs, hNqhn⟩, hNqp, hNu, hNpw, hNrt⟩ := hN
  constructor
  · intro now a hEq hHost
    obtain ⟨e1, e2, e3, e4, e5, e6, e7, e8, e9⟩ := hEq
    have hT : next_transport_of st.cfg a = Except.ok st.cfg.transport := by
      unfold next_transport_of
      cases ha : a.transport with
      | none => rfl
      | some t =>
        rw [ha] at e1
        have ht : t = st.cfg.transport := e1
        subst ht
        rcases hNt with h | h <;> rw [h] <;> rfl
    have hH : next_mesh_host_of st.cfg a = Except.ok st.cfg.mesh_host := by
      unfold next_mesh_host_of
      cases ha : a.mesh_host with
      | none => rfl
      | some h =>
        rw [ha] at e2
        have hh : h = st.cfg.mesh_host := e2
        subst hh
        have hne : st.cfg.mesh_host ≠ "" := hHost (by rw [ha]; rfl)
        simp [hNh, hne]
    have hP : next_mesh_port_of st.cfg a = Except.ok st.cfg.mesh_port := by
      unfold next_mesh_port_of
      cases ha : a.mesh_port with
      | none => rfl
      | some p =>
        rw [ha] at e3
        have hp : p = st.cfg.mesh_port := e3
        subst hp
        have hr : ¬ (st.cfg.mesh_port ≤ 0 ∨ 65535 < st.cfg.mesh_port) := by omega
        simp [hr]
    have hQH : next_mqtt_host_of st.cfg a = Except.ok st.cfg.mqtt_host := by
      unfold next_mqtt_host_of
      cases ha : a.mqtt_host with
      | none => rfl
      | some h =>
        rw [ha] at e4
        have hh : h = st.cfg.mqtt_host := e4
        subst hh
        simp [hNqhs, hNqhn]
    have hQP : next_mqtt_port_of st.cfg a = Except.ok st.cfg.mqtt_port := by
      unfold next_mqtt_port_of
      cases ha : a.mqtt_port with
      | none => rfl
      | some p =>
        rw [ha] at e5
        have hp : p = st.cfg.mqtt_port := e5
        subst hp
        have hr : ¬ (st.cfg.mqtt_port ≤ 0 ∨ 65535 < st.cfg.mqtt_port) := by omega
        simp [hr]
    have hU : next_mqtt_username_of st.cfg a = st.cfg.mqtt_username := by
      unfold next_mqtt_username_of
      cases ha : a.mqtt_username with
      | none => rfl
      | some u =>
        rw [ha] at e6
        rw [e6] at hNu
        have hu : pyStrip u = u ∧ u ≠ "" := hNu
        simp [hu.1, hu.2, e6]
    have hPw : next_mqtt_password_of st.cfg a = st.cfg.mqtt_password := by
      unfold next_mqtt_password_of
      cases ha : a.mqtt_password with
      | none => rfl
      | some p =>
        rw [ha] at e7
        rw [e7] at hNpw
        have hp : p ≠ "" := hNpw
        simp [hp, e7]
    have hTl : next_mqtt_tls_of st.cfg a = st.cfg.mqtt_tls := by
      unfold next_mqtt_tls_of
      cases ha : a.mqtt_tls with
      | none => rfl
      | some b =>
        rw [ha] at e8
        exact e8
    have hRt : next_mqtt_root_topic_of st.cfg a = st.cfg.mqtt_root_topic := by
      unfold next_mqtt_root_topic_of
      cases ha : a.mqtt_root_topic with
      | none => rfl
      | some t =>
        rw [ha] at e9
        rw [e9] at hNrt
        have ht : pyStrip t = t ∧ t ≠ "" := hNrt
        simp [ht.1, ht.2, e9]
    unfold reconfigure
    rw [hT, hH, hP, hQH, hQP]
    simp only [hU, hPw, hTl, hRt]
    rw [if_neg (fun hc => hNqhn hc.2)]
    rw [if_neg (by simp)]
  · intro now a st1 db hdb hok hchange
    unfold reconfigure at hok
    cases hT : next_transport_of st.cfg a <;> rw [hT] at hok
    · simp at hok
    case ok nt =>
    cases hH : next_mesh_host_of st.cfg a <;> rw [hH] at hok
    · simp at hok
    case ok nh =>
    cases hP : next_mesh_port_of st.cfg a <;> rw [hP] at hok
    · simp at hok
    case ok np =>
    cases hQH : next_mqtt_host_of st.cfg a <;> rw [hQH] at hok
    · simp at hok
    case ok qh =>
    cases hQP : next_mqtt_port_of st.cfg a <;> rw [hQP] at hok
    · simp at hok
    case ok qp =>
    simp only [] at hok
    by_cases hcond : (nt = "mqtt" ∧ qh = "")
    · rw [if_pos hcond] at hok
      simp at hok
    · rw [if_neg hcond] at hok
      by_cases hch : (nt ≠ st.cfg.transport ∨ nh ≠ st.cfg.mesh_host ∨
          np ≠ st.cfg.mesh_port ∨ qh ≠ st.cfg.mqtt_host ∨
          qp ≠ st.cfg.mqtt_port ∨ next_mqtt_username_of st.cfg a ≠ st.cfg.mqtt_username ∨
          next_mqtt_password_of st.cfg a ≠ st.cfg.mqtt_password ∨
          next_mqtt_tls_of st.cfg a ≠ st.cfg.mqtt_tls ∨
          next_mqtt_root_topic_of st.cfg a ≠ st.cfg.mqtt_root_topic)
      · rw [if_pos hch] at hok
        injection hok with hok1
        refine ⟨?_, ?_, ?_, ?_⟩
        · rw [← hok1]
          rfl
        · rw [← hok1]
          unfold _disconnect _record_mesh_event_svc
          simp [hdb]
        · refine ⟨record_mesh_event db now "disconnect" (some "reconfigure"), ?_,
            record_mesh_event_disconnect_events db now⟩
          rw [← hok1]
          unfold _disconnect _record_mesh_event_svc
          simp [hdb]
        · have hif : st1.iface = none := by
            rw [← hok1]
            rfl
          unfold _connect
          rw [hif]
      · rw [if_neg hch] at hok
        push_neg at hch
        injection hok with hok1
        exfalso
        rcases hchange with hc | hc
        · apply hc
          rw [← hok1]
          exact hch.2.1
        · apply hc
          rw [← hok1]
          exact hch.2.2.1

/-- Witness for C2 at concrete inputs: supplying every field with its current
value is accepted and returns the identical state (no event, handle intact);
supplying a different mesh host forces a disconnect event with detail
`"reconfigure"`, clears the handle, and the next `_connect` opens the new
target. -/
theorem c2_reconfigure_contract_witness :
    meshStateEx.cfg.Normalized ∧
    reconfigure meshStateEx 5
        ⟨some "tcp", some "mesh.local", some 4403, some "mqtt.meshtastic.org",
         some 1883, none, none, some false, none⟩ = Except.ok meshStateEx ∧
    (∀ st1, reconfigure meshStateEx 7 { noArgs with mesh_host := some "other.host" } = Except.ok st1 →
      (st1.cfg.mesh_host ≠ meshStateEx.cfg.mesh_host ∨ st1.cfg.mesh_port ≠ meshStateEx.cfg.mesh_port) →
      st1.iface = none ∧
      st1.stats_db = some (record_mesh_event emptyStatsDB 7 "disconnect" (some "reconfigure")) ∧
      (∃ db1, st1.stats_db = some db1 ∧
        db1.events = emptyStatsDB.events ++ [⟨7, "mesh_disconnect", some "reconfigure"⟩]) ∧
      (_connect st1).2 = _target_str st1.cfg) := by
  have hNorm : meshStateEx.cfg.Normalized :=
    ⟨Or.inl rfl, by decide, by decide, ⟨by decide, by decide⟩, by decide, trivial, trivial, trivial⟩
  refine ⟨hNorm, ?_, ?_⟩
  · exact (c2_reconfigure_contract meshStateEx hNorm).1 5 _
      ⟨rfl, rfl, rfl, rfl, rfl, trivial, trivial, rfl, trivial⟩ (fun _ => by decide)
  · intro st1 hok hchange
    exact (c2_reconfigure_contract meshStateEx hNorm).2 7 _ st1 emptyStatsDB rfl hok hchange

/-! ### C8: COALESCE semantics of the node identity upsert -/

/-- A snapshot node carrying only a known role. -/
def nodeRoleRouter : PyNode := ⟨some ⟨none, none, some "ROUTER", none⟩, none, none, none⟩

/-- A snapshot node whose user block carries no information at all. -/
def nodeRoleUnknown : PyNode := ⟨some ⟨none, none, none, none⟩, none, none, none⟩

/-- C8 counterexample: the `role` field does **not** follow never-erase
semantics. `node_user_fields` normalizes an unknown role to `"CLIENT"` before
the upsert, so the bound value is never NULL and `COALESCE(?, role)` lets it
overwrite: after a snapshot with role `"ROUTER"`, a second snapshot in which
the role is unknown rewrites the stored role to `"CLIENT"`, erasing the
previously known value — contradicting the claim for the role field. -/
theorem c8_counterexample :
    (alookup (record_nodes_snapshot emptyStatsDB 10 [("!n1", nodeRoleRouter)]).node_counts "!n1").map
        NodeRow.role = some (some "ROUTER") ∧
    (alookup (record_nodes_snapshot
        (record_nodes_snapshot emptyStatsDB 10 [("!n1", nodeRoleRouter)]) 20
        [("!n1", nodeRoleUnknown)]).node_counts "!n1").map NodeRow.role = some (some "CLIENT") := by
  decide

theorem snap_entry_of_eq_some (p : String × PyNode) (e : SnapEntry) (h : snap_entry_of p = some e) :
    p.1 ≠ "" ∧ e.node_id = p.1 ∧ e.short = (node_user_fields (some p.2)).short ∧
    e.long = (node_user_fields (some p.2)).long ∧ e.role = (node_user_fields (some p.2)).role ∧
    e.hw_model = (node_user_fields (some p.2)).hwModel ∧ e.firmware = none := by
  unfold snap_entry_of at h
  split at h
  · cases h
  · next hne =>
    injection h with h
    subst h
    exact ⟨hne, rfl, rfl, rfl, rfl, rfl, rfl⟩

theorem foldl_coalesce_short (es : List SnapEntry) :
    ∀ v : NodeRow, (∀ e ∈ es, e.short = none) →
      (es.foldl (fun v e => coalesce_update e v) v).short = v.short := by
  induction es with
  | nil => intro v _; rfl
  | cons e rest ih =>
    intro v h
    rw [List.foldl_cons, ih _ (fun x hx => h x (List.mem_cons_of_mem e hx))]
    simp [coalesce_update, h e (List.mem_cons_self e rest), Option.none_or]

theorem foldl_coalesce_long (es : List SnapEntry) :
    ∀ v : NodeRow, (∀ e ∈ es, e.long = none) →
      (es.foldl (fun v e => coalesce_update e v) v).long = v.long := by
  induction es with
  | nil => intro v _; rfl
  | cons e rest ih =>
    intro v h
    rw [List.foldl_cons, ih _ (fun x hx => h x (List.mem_cons_of_mem e hx))]
    simp [coalesce_update, h e (List.mem_cons_self e rest), Option.none_or]

theorem foldl_coalesce_hw (es : List SnapEntry) :
    ∀ v : NodeRow, (∀ e ∈ es, e.hw_model = none) →
      (es.foldl (fun v e => coalesce_update e v) v).hw_model = v.hw_model := by
  induction es with
  | nil => intro v _; rfl
  | cons e rest ih =>
    intro v h
    rw [List.foldl_cons, ih _ (fun x hx => h x (List.mem_cons_of_mem e hx))]
    simp [coalesce_update, h e (List.mem_cons_self e rest), Option.none_or]

theorem foldl_coalesce_firmware (es : List SnapEntry) :
    ∀ v : NodeRow, (∀ e ∈ es, e.firmware = none) →
      (es.foldl (fun v e => coalesce_update e v) v).firmware = v.firmware := by
  induction es with
  | nil => intro v _; rfl
  | cons e rest ih =>
    intro v h
    rw [List.foldl_cons, ih _ (fun x hx => h x (List.mem_cons_of_mem e hx))]
    simp [coalesce_update, h e (List.mem_cons_self e rest), Option.none_or]

theorem foldl_coalesce_role (es : List SnapEntry) :
    ∀ v : NodeRow, es ≠ [] → (∀ e ∈ es, e.role = some "CLIENT") →
      (es.foldl (fun v e => coalesce_update e v) v).role = some "CLIENT" := by
  induction es with
  | nil => intro v h _; exact absurd rfl h
  | cons e rest ih =>
    intro v _ h
    rw [List.foldl_cons]
    by_cases hrest : rest = []
    · subst hrest
      simp [coalesce_update, h e (List.mem_cons_self e [])]
    · exact ih (coalesce_update e v) hrest (fun x hx => h x (List.mem_cons_of_mem e hx))

theorem alookup_foldl_ensure (entries : List SnapEntry) :
    ∀ (nc : List (String × NodeRow)) (n : String), (alookup nc n).isSome →
      alookup (entries.foldl (fun nc e => tableEnsure nc e.node_id emptyNodeRow) nc) n
        = alookup nc n := by
  induction entries with
  | nil => intro nc n _; rfl
  | cons e rest ih =>
    intro nc n h
    rw [List.foldl_cons]
    have hstep : alookup (tableEnsure nc e.node_id emptyNodeRow) n = alookup nc n := by
      by_cases hk : n = e.node_id
      · subst hk
        unfold tableEnsure
        rw [if_pos h]
      · exact alookup_tableEnsure_ne nc e.node_id n emptyNodeRow hk
    rw [ih _ _ (by rw [hstep]; exact h), hstep]

theorem alookup_foldl_update (entries : List SnapEntry) :
    ∀ (nc : List (String × NodeRow)) (n : String) (r : NodeRow), alookup nc n = some r →
      alookup (entries.foldl (fun nc e => tableUpdate nc e.node_id (coalesce_update e)) nc) n
        = some ((entries.filter (fun e => decide (e.node_id = n))).foldl
            (fun v e => coalesce_update e v) r) := by
  induction entries with
  | nil =>
    intro nc n r h
    simpa using h
  | cons e rest ih =>
    intro nc n r h
    rw [List.foldl_cons]
    by_cases hk : e.node_id = n
    · have hstep : alookup (tableUpdate nc e.node_id (coalesce_update e)) n
          = some (coalesce_update e r) := by
        subst hk
        rw [alookup_tableUpdate_self, h]
        rfl
      rw [ih _ _ _ hstep, List.filter_cons]
      simp [hk]
    · have hstep : alookup (tableUpdate nc e.node_id (coalesce_update e)) n = some r := by
        rw [alookup_tableUpdate_ne nc e.node_id n _ (fun hh => hk hh.symm)]
        exact h
      rw [ih _ _ _ hstep, List.filter_cons]
      simp [hk]

theorem record_nodes_snapshot_node_counts (db : StatsDB) (now : Int) (nodes : List (String × PyNode)) :
    (record_nodes_snapshot db now nodes).node_counts =
      if nodes.isEmpty ∨ (nodes.filterMap snap_entry_of).isEmpty then db.node_counts
      else (nodes.filterMap snap_entry_of).foldl (fun nc e => tableUpdate nc e.node_id (coalesce_update e))
            ((nodes.filterMap snap_entry_of).foldl (fun nc e => tableEnsure nc e.node_id emptyNodeRow)
              db.node_counts) := by
  unfold record_nodes_snapshot
  cases h1 : nodes.isEmpty
  · cases h2 : (nodes.filterMap snap_entry_of).isEmpty
    · cases h3 : nodes_history_should_store db now <;> simp [h1, h2, h3]
    · simp [h1, h2]
  · simp [h1]

/-- C8 (amended): the identity upsert binds `COALESCE(new, old)` for
short/long/role/hw_model/firmware, so a later snapshot in which
short/long/hw_model are unknown (and firmware, which the recorder always binds
NULL) never erases a previously known value; the **role** however is
normalized to `"CLIENT"` before binding, so a later snapshot whose role is
unknown overwrites any previously known role with `"CLIENT"` — the claim's
never-erase property fails for role (see the counterexample) and holds for the
other identity fields. -/
theorem c8_coalesce_identity (db : StatsDB) (now : Int) (nodes : List (String × PyNode))
    (n : String) (r : NodeRow) (hr : alookup db.node_counts n = some r) :
    ∃ r', alookup (record_nodes_snapshot db now nodes).node_counts n = some r' ∧
      ((∀ p ∈ nodes, p.1 = n → (node_user_fields (some p.2)).short = none) → r'.short = r.short) ∧
      ((∀ p ∈ nodes, p.1 = n → (node_user_fields (some p.2)).long = none) → r'.long = r.long) ∧
      ((∀ p ∈ nodes, p.1 = n → (node_user_fields (some p.2)).hwModel = none) → r'.hw_model = r.hw_model) ∧
      r'.firmware = r.firmware ∧
      ((n ≠ "" ∧ ∃ p ∈ nodes, p.1 = n) →
        (∀ p ∈ nodes, p.1 = n → (node_user_fields (some p.2)).role = some "CLIENT") →
        r'.role = some "CLIENT") := by
  have hcounts := record_nodes_snapshot_node_counts db now nodes
  by_cases hskip : (nodes.isEmpty ∨ (nodes.filterMap snap_entry_of).isEmpty : Prop)
  · refine ⟨r, by rw [hcounts, if_pos hskip]; exact hr, fun _ => rfl, fun _ => rfl, fun _ => rfl, rfl, ?_⟩
    rintro ⟨hn, p, hp, hpn⟩ _
    exfalso
    have hpsome : (snap_entry_of p).isSome := snap_entry_of_isSome p (by rw [hpn]; exact hn)
    cases hse : snap_entry_of p with
    | none => rw [hse] at hpsome; simp at hpsome
    | some e =>
      have hmem : e ∈ nodes.filterMap snap_entry_of :=
        List.mem_filterMap.mpr ⟨p, hp, hse⟩
      rcases hskip with hs | hs
      · have : nodes = [] := by
          cases nodes with
          | nil => rfl
          | cons a t => simp at hs
        rw [this] at hp
        simp at hp
      · have : nodes.filterMap snap_entry_of = [] := by
          cases hfe : nodes.filterMap snap_entry_of with
          | nil => rfl
          | cons a t => rw [hfe] at hs; simp at hs
        rw [this] at hmem
        simp at hmem
  · rw [hcounts, if_neg hskip]
    have h1 := alookup_foldl_ensure (nodes.filterMap snap_entry_of) db.node_counts n
      (by rw [hr]; rfl)
    rw [hr] at h1
    have h2 := alookup_foldl_update (nodes.filterMap snap_entry_of) _ n r h1
    have hfilter : ∀ e ∈ (nodes.filterMap snap_entry_of).filter (fun e => decide (e.node_id = n)),
        ∃ p ∈ nodes, snap_entry_of p = some e ∧ p.1 = n := by
      intro e he
      have := List.mem_filter.mp he
      obtain ⟨p, hp, hse⟩ := List.mem_filterMap.mp this.1
      have hid := (snap_entry_of_eq_some p e hse).2.1
      refine ⟨p, hp, hse, ?_⟩
      rw [← hid]
      exact of_decide_eq_true this.2
    refine ⟨_, h2, ?_, ?_, ?_, ?_, ?_⟩
    · intro hshort
      apply foldl_coalesce_short
      intro e he
      obtain ⟨p, hp, hse, hpn⟩ := hfilter e he
      rw [(snap_entry_of_eq_some p e hse).2.2.1]
      exact hshort p hp hpn
    · intro hlong
      apply foldl_coalesce_long
      intro e he
      obtain ⟨p, hp, hse, hpn⟩ := hfilter e he
      rw [(snap_entry_of_eq_some p e hse).2.2.2.1]
      exact hlong p hp hpn
    · intro hhw
      apply foldl_coalesce_hw
      intro e he
      obtain ⟨p, hp, hse, hpn⟩ := hfilter e he
      rw [(snap_entry_of_eq_some p e hse).2.2.2.2.2.1]
      exact hhw p hp hpn
    · apply foldl_coalesce_firmware
      intro e he
      obtain ⟨p, hp, hse, hpn⟩ := hfilter e he
      exact (snap_entry_of_eq_some p e hse).2.2.2.2.2.2
    · rintro ⟨hn, p, hp, hpn⟩ hrole
      have hpsome : (snap_entry_of p).isSome := snap_entry_of_isSome p (by rw [hpn]; exact hn)
      cases hse : snap_entry_of p with
      | none => rw [hse] at hpsome; simp at hpsome
      | some e =>
        have hid := (snap_entry_of_eq_some p e hse).2.1
        have hmem : e ∈ (nodes.filterMap snap_entry_of).filter (fun e => decide (e.node_id = n)) := by
          apply List.mem_filter.mpr
          refine ⟨List.mem_filterMap.mpr ⟨p, hp, hse⟩, ?_⟩
          rw [decide_eq_true_eq, hid, hpn]
        apply foldl_coalesce_role _ _ (List.ne_nil_of_mem hmem)
        intro x hx
        obtain ⟨q, hq, hqe, hqn⟩ := hfilter x hx
        rw [(snap_entry_of_eq_some q x hqe).2.2.2.2.1]
        exact hrole q hq hqn

/-- The first-snapshot row of `nodeRoleRouter` plus a short name, used to
instantiate the C8 theorem concretely. -/
def nodeRouterShort : PyNode := ⟨some ⟨some "S1", none, some "ROUTER", none⟩, none, none, none⟩

/-- Witness for C8 (amended) at concrete inputs: after a snapshot storing
short "S1" and role "ROUTER" for "!n1", a second snapshot with nothing known
keeps the short name but rewrites the role to "CLIENT". -/
theorem c8_coalesce_identity_witness :
    alookup (record_nodes_snapshot emptyStatsDB 10 [("!n1", nodeRouterShort)]).node_counts "!n1"
        = some ⟨0, 0, none, none, none, some "S1", none, some "ROUTER", none, none, none, none⟩ ∧
    ∃ r', alookup (record_nodes_snapshot
            (record_nodes_snapshot emptyStatsDB 10 [("!n1", nodeRouterShort)]) 20
            [("!n1", nodeRoleUnknown)]).node_counts "!n1" = some r' ∧
      r'.short = some "S1" ∧ r'.role = some "CLIENT" := by
  have hr : alookup (record_nodes_snapshot emptyStatsDB 10 [("!n1", nodeRouterShort)]).node_counts "!n1"
      = some ⟨0, 0, none, none, none, some "S1", none, some "ROUTER", none, none, none, none⟩ := by
    decide
  obtain ⟨r', hlook, hshort, _, _, _, hrole⟩ :=
    c8_coalesce_identity (record_nodes_snapshot emptyStatsDB 10 [("!n1", nodeRouterShort)]) 20
      [("!n1", nodeRoleUnknown)] "!n1" _ hr
  refine ⟨hr, r', hlook, ?_, ?_⟩
  · rw [hshort (by decide)]
  · exact hrole ⟨by decide, ("!n1", nodeRoleUnknown), by decide, rfl⟩ (by decide)

/-! ### C1: messages_window and hour bucketing -/

/-- Written from the **spec's words** for claim C1 (not from the source): the
window sum over hourly buckets whose hour value is `>= now - H*3600`, with no
hour alignment of the window start. Compared against the source-derived
`summary.messages_window` below. -/
def claimed_messages_window (db : StatsDB) (now : Int) (hours : Int) : Nat :=
  sum_messages (db.hourly_counts.filter (fun p => decide (now - (max 1 hours) * 3600 ≤ p.1)))

theorem sum_messages_sortedBy (le : (Int × HourRow) → (Int × HourRow) → Bool)
    (l : List (Int × HourRow)) : sum_messages (sortedBy le l) = sum_messages l := by
  unfold sum_messages
  exact ((perm_sortedBy le l).map _).sum_eq

theorem hourly_incr_counter (db : StatsDB) (k : String) (d : Int) :
    (incr_counter db k d).hourly_counts = db.hourly_counts := rfl

theorem hourly_ensure_node (db : StatsDB) (nid : String) :
    (_ensure_node db nid).hourly_counts = db.hourly_counts := rfl

theorem hourly_store_message (db : StatsDB) (msg : Msg) (ts : Int) :
    (_store_message db msg ts).hourly_counts = db.hourly_counts := rfl

theorem hourly_record_message_from (db : StatsDB) (ts : Int) (msg : Msg) :
    (record_message_from db ts msg).hourly_counts = db.hourly_counts := by
  unfold record_message_from
  repeat' split
  all_goals rfl

theorem hourly_record_message_to (db : StatsDB) (msg : Msg) :
    (record_message_to db msg).hourly_counts = db.hourly_counts := by
  unfold record_message_to
  repeat' split
  all_goals rfl

theorem hourly_record_app_appearance (db : StatsDB) (msg : Msg) :
    (_record_app_appearance db msg).hourly_counts = db.hourly_counts := by
  unfold _record_app_appearance
  repeat' split
  all_goals rfl

theorem hourly_record_app_request (db : StatsDB) (now : Int) (msg : Msg) :
    (_record_app_request db now msg).hourly_counts = db.hourly_counts := rfl

theorem hourly_ensure_hour (db : StatsDB) (h : Int) :
    (_ensure_hour db h).hourly_counts = tableEnsure db.hourly_counts h emptyHourRow := rfl

theorem hourly_ite_incr (c : Prop) [Decidable c] (dbx : StatsDB) (k : String) :
    (if c then incr_counter dbx k 1 else dbx).hourly_counts = dbx.hourly_counts := by
  split <;> rfl

theorem record_message_hourly_eq (db : StatsDB) (now : Int) (msg : Msg) :
    (record_message db now msg).hourly_counts =
      tableUpdate (tableEnsure db.hourly_counts (hour_floor (msg_ts now msg)) emptyHourRow)
        (hour_floor (msg_ts now msg))
        (fun r => ⟨r.messages + 1,
          r.with_text + (if (match msg.text with
            | some t => pyStrip t != ""
            | none => false : Bool) then 1 else 0),
          r.with_payload + (if msg.payload_b64.isSome then 1 else 0)⟩) := by
  unfold record_message
  rw [hourly_store_message, hourly_record_app_request, hourly_record_app_appearance,
      hourly_record_message_to, hourly_record_message_from]
  dsimp only
  rw [hourly_ensure_hour, hourly_ite_incr, hourly_ite_incr, hourly_incr_counter]

/-- The claim C1 counterexample message: `rxTime = 3650` lands in the
hour bucket `3600`. -/
def msgHour3600 : Msg := { emptyMsg with rxTime := some 3650 }

/-- C1 counterexample: the window filter aligns its start down to the hour.
One message at `rxTime 3650` (bucket 3600); `summary` at `now = 7300` with
`H = 1` counts it (`3600 >= hour_floor(3700) = 3600`), while the claim's
formula — buckets with `hour >= now - H*3600 = 3700` — counts nothing. The
claimed equality fails at this input. -/
theorem c1_counterexample :
    (summary (record_message emptyStatsDB 1000 msgHour3600) 7300 1 8 12 none 7).messages_window = 1 ∧
    claimed_messages_window (record_message emptyStatsDB 1000 msgHour3600) 7300 1 = 0 ∧
    (summary (record_message emptyStatsDB 1000 msgHour3600) 7300 1 8 12 none 7).messages_window ≠
      claimed_messages_window (record_message emptyStatsDB 1000 msgHour3600) 7300 1 := by
  refine ⟨by decide, by decide, by decide⟩

/-- C1 (amended): `summary(hours=H).messages_window` equals the sum of the
`messages` fields of the hourly bucket rows whose hour value is at least the
**hour-aligned** window start `hour_floor(now - max(1,H)*3600)`; and each
`record_message` buckets its message into the hour-aligned row
`hour_floor(ts)` — incrementing exactly that bucket's `messages` by one and
leaving every other bucket untouched — with `ts` taken from the message's
`rxTime` when positive and from the current time otherwise (`msg_ts`). -/
theorem c1_messages_window :
    (∀ (db : StatsDB) (now hours tl el nd : Int) (lid : Option String),
        (summary db now hours tl el lid nd).messages_window
          = sum_messages (db.hourly_counts.filter
              (fun p => decide (hour_floor (now - (max 1 hours) * 3600) ≤ p.1)))) ∧
    (∀ (db : StatsDB) (now : Int) (msg : Msg),
        ∃ r, alookup (record_message db now msg).hourly_counts (hour_floor (msg_ts now msg)) = some r ∧
          r.messages = ((alookup db.hourly_counts (hour_floor (msg_ts now msg))).getD emptyHourRow).messages + 1) ∧
    (∀ (db : StatsDB) (now : Int) (msg : Msg) (h : Int),
        h ≠ hour_floor (msg_ts now msg) →
        alookup (record_message db now msg).hourly_counts h = alookup db.hourly_counts h) := by
  refine ⟨?_, ?_, ?_⟩
  · intro db now hours tl el nd lid
    show sum_messages (_get_hourly db (now - max 1 hours * 3600)) = _
    unfold _get_hourly
    rw [sum_messages_sortedBy]
  · intro db now msg
    rw [record_message_hourly_eq]
    rw [alookup_tableUpdate_self, alookup_tableEnsure_self]
    exact ⟨_, rfl, rfl⟩
  · intro db now msg h hne
    rw [record_message_hourly_eq]
    rw [alookup_tableUpdate_ne _ _ _ _ hne, alookup_tableEnsure_ne _ _ _ _ hne]

/-- Witness for C1 (amended) at concrete inputs. -/
theorem c1_messages_window_witness :
    ((summary (record_message emptyStatsDB 1000 msgHour3600) 7300 1 8 12 none 7).messages_window
      = sum_messages ((record_message emptyStatsDB 1000 msgHour3600).hourly_counts.filter
          (fun p => decide (hour_floor ((7300 : Int) - (max 1 1) * 3600) ≤ p.1)))) ∧
    ((0 : Int) ≠ hour_floor (msg_ts 1000 msgHour3600) ∧
      alookup (record_message emptyStatsDB 1000 msgHour3600).hourly_counts 0
        = alookup emptyStatsDB.hourly_counts 0) :=
  ⟨c1_messages_window.1 (record_message emptyStatsDB 1000 msgHour3600) 7300 1 8 12 7 none,
   by decide,
   c1_messages_window.2.2 emptyStatsDB 1000 msgHour3600 0 (by decide)⟩

/-! ### C5: flakiness counting -/

theorem tableUpdate_of_lookup_none [DecidableEq κ] (l : List (κ × α)) (k : κ) (f : α → α)
    (h : alookup l k = none) : tableUpdate l k f = l := by
  induction l with
  | nil => rfl
  | cons p rest ih =>
    rw [alookup_cons] at h
    by_cases hp : p.1 = k
    · rw [if_pos hp] at h
      cases h
    · rw [if_neg hp] at h
      simp only [tableUpdate, if_neg hp]
      rw [ih h]

theorem tableUpdate_append [DecidableEq κ] (l₁ l₂ : List (κ × α)) (k : κ) (f : α → α) :
    tableUpdate (l₁ ++ l₂) k f = tableUpdate l₁ k f ++ tableUpdate l₂ k f := by
  induction l₁ with
  | nil => rfl
  | cons p rest ih =>
    simp only [List.cons_append, tableUpdate, List.append_eq, ih]

theorem tableUpdate_const_append_singleton [DecidableEq κ] (l : List (κ × α)) (k : κ) (c v : α)
    (h : alookup l k = none) :
    tableUpdate (l ++ [(k, c)]) k (fun _ => v) = l ++ [(k, v)] := by
  rw [tableUpdate_append, tableUpdate_of_lookup_none l k _ h]
  simp [tableUpdate]

theorem tableUpdate_tableUpdate_const [DecidableEq κ] (l : List (κ × α)) (k : κ) (a b : α) :
    tableUpdate (tableUpdate l k (fun _ => a)) k (fun _ => b) = tableUpdate l k (fun _ => b) := by
  induction l with
  | nil => rfl
  | cons p rest ih =>
    by_cases hp : p.1 = k
    · simp only [tableUpdate, if_pos hp, ih]
    · simp only [tableUpdate, if_neg hp, ih]

theorem dictSet_of_lookup_none [DecidableEq κ] (l : List (κ × α)) (k : κ) (v : α)
    (h : alookup l k = none) : dictSet l k v = l ++ [(k, v)] := by
  unfold dictSet tableEnsure
  rw [h]
  simp only [Option.isSome_none, Bool.false_eq_true, if_false]
  exact tableUpdate_const_append_singleton l k v v h

theorem dictSet_of_lookup_isSome [DecidableEq κ] (l : List (κ × α)) (k : κ) (v : α)
    (h : (alookup l k).isSome) : dictSet l k v = tableUpdate l k (fun _ => v) := by
  unfold dictSet tableEnsure
  rw [if_pos h]

/-- The number of hop-count changes along a sample sequence, starting from an
optional previously seen value — the specification of the `_get_node_flaky`
change counting, written from the spec's words. -/
def run_node : Option Int → List Int → Nat
  | _, [] => 0
  | p0, h :: rest =>
    (match p0 with
     | some last => if h ≠ last then 1 else 0
     | none => 0) + run_node (some h) rest

/-- Changes between consecutive elements of a hop-count sequence (spec side):
`[1,1,2,2,1]` has 2 changes, `[1,1,1]` has 0. -/
def hop_changes (hs : List Int) : Nat := run_node none hs

theorem flaky_fold_other_keys (n : String) :
    ∀ (rs : List HistRow), (∀ r ∈ rs, r.node_id = n) →
    ∀ (changes : List (String × Nat)) (prev : List (String × Int)) (k : String), k ≠ n →
      alookup (rs.foldl flaky_step (changes, prev)).1 k = alookup changes k ∧
      alookup (rs.foldl flaky_step (changes, prev)).2 k = alookup prev k := by
  intro rs
  induction rs with
  | nil => intro _ changes prev k _; exact ⟨rfl, rfl⟩
  | cons r rest ih =>
    intro hall changes prev k hk
    have hrn : r.node_id = n := hall r (List.mem_cons_self r rest)
    have hall' : ∀ x ∈ rest, x.node_id = n := fun x hx => hall x (List.mem_cons_of_mem r hx)
    rw [List.foldl_cons]
    cases hh : r.hops_away with
    | none =>
      have hstep : flaky_step (changes, prev) r = (changes, prev) := by
        unfold flaky_step
        rw [hh]
      rw [hstep]
      exact ih hall' changes prev k hk
    | some h =>
      have hstep : flaky_step (changes, prev) r =
          ((match alookup prev n with
            | some last => if h ≠ last then dictSet changes n ((alookup changes n).getD 0 + 1) else changes
            | none => changes), dictSet prev n h) := by
        unfold flaky_step
        rw [hh, hrn]
      rw [hstep]
      have h2 := ih hall'
        (match alookup prev n with
         | some last => if h ≠ last then dictSet changes n ((alookup changes n).getD 0 + 1) else changes
         | none => changes)
        (dictSet prev n h) k hk
      refine ⟨?_, ?_⟩
      · rw [h2.1]
        cases hp : alookup prev n with
        | none => rfl
        | some last =>
          by_cases hd : h ≠ last
          · simp only [if_pos hd]
            exact alookup_dictSet_ne _ _ _ _ hk
          · simp only [if_neg hd]
      · rw [h2.2]
        exact alookup_dictSet_ne _ _ _ _ hk

theorem flaky_fold_block (n : String) :
    ∀ (rs : List HistRow), (∀ r ∈ rs, r.node_id = n) →
    ∀ (changes : List (String × Nat)) (prev : List (String × Int)),
      (rs.foldl flaky_step (changes, prev)).1 =
        (if run_node (alookup prev n) (rs.filterMap (fun r => r.hops_away)) = 0 then changes
         else match alookup changes n with
           | none => changes ++ [(n, run_node (alookup prev n) (rs.filterMap (fun r => r.hops_away)))]
           | some c => tableUpdate changes n
               (fun _ => c + run_node (alookup prev n) (rs.filterMap (fun r => r.hops_away)))) := by
  intro rs
  induction rs with
  | nil =>
    intro _ changes prev
    simp [run_node]
  | cons r rest ih =>
    intro hall changes prev
    have hrn : r.node_id = n := hall r (List.mem_cons_self r rest)
    have hall' : ∀ x ∈ rest, x.node_id = n := fun x hx => hall x (List.mem_cons_of_mem r hx)
    rw [List.foldl_cons]
    cases hh : r.hops_away with
    | none =>
      have hstep : flaky_step (changes, prev) r = (changes, prev) := by
        unfold flaky_step
        rw [hh]
      rw [hstep, ih hall' changes prev]
      simp only [List.filterMap_cons, hh]
    | some h =>
      have hstep : flaky_step (changes, prev) r =
          ((match alookup prev n with
            | some last => if h ≠ last then dictSet changes n ((alookup changes n).getD 0 + 1) else changes
            | none => changes), dictSet prev n h) := by
        unfold flaky_step
        rw [hh, hrn]
      rw [hstep]
      simp only [List.filterMap_cons, hh]
      have hprev1 : alookup (dictSet prev n h) n = some h := alookup_dictSet_self prev n h
      cases hp : alookup prev n with
      | none =>
        rw [ih hall' changes (dictSet prev n h), hprev1]
        simp [run_node]
      | some last =>
        by_cases hd : h ≠ last
        · simp only [if_pos hd]
          cases hc : alookup changes n with
          | none =>
            have hset : dictSet changes n (Option.getD none 0 + 1) = changes ++ [(n, 1)] :=
              dictSet_of_lookup_none changes n _ hc
            rw [hset, ih hall' (changes ++ [(n, 1)]) (dictSet prev n h), hprev1]
            have hlook1 : alookup (changes ++ [(n, 1)]) n = some 1 := by
              rw [alookup_append, hc]
              simp
            rw [hlook1]
            simp only [run_node, hp]
            rw [if_pos hd]
            by_cases hr1 : run_node (some h) (rest.filterMap (fun r => r.hops_away)) = 0
            · rw [hr1]
              simp [hc]
            · rw [if_neg hr1, if_neg (by omega)]
              rw [tableUpdate_const_append_singleton changes n 1 _ hc]
          | some c =>
            have hset : dictSet changes n (Option.getD (some c) 0 + 1)
                = tableUpdate changes n (fun _ => c + 1) :=
              dictSet_of_lookup_isSome changes n _ (by rw [hc]; rfl)
            rw [hset, ih hall' _ (dictSet prev n h), hprev1]
            have hlook1 : alookup (tableUpdate changes n (fun _ => c + 1)) n = some (c + 1) := by
              rw [alookup_tableUpdate_self, hc]
              rfl
            rw [hlook1]
            simp only [run_node, hp]
            rw [if_pos hd]
            by_cases hr1 : run_node (some h) (rest.filterMap (fun r => r.hops_away)) = 0
            · rw [hr1]
              simp [hc]
            · rw [if_neg hr1, if_neg (by omega)]
              rw [tableUpdate_tableUpdate_const]
              have : c + 1 + run_node (some h) (rest.filterMap (fun r => r.hops_away))
                  = c + (1 + run_node (some h) (rest.filterMap (fun r => r.hops_away))) := by omega
              rw [this]
        · simp only [if_neg hd]
          rw [ih hall' changes (dictSet prev n h), hprev1]
          simp only [run_node, hp]
          rw [if_neg hd]
          simp

/-- Adjacent differing pairs of a hop-count sequence — the claim's change
counting, written from the **spec's words**: `[1,1,2,2,1]` scores 2,
`[1,1,1]` scores 0. -/
def adjacent_changes (hs : List Int) : Nat :=
  (hs.zip hs.tail).countP (fun p => decide (p.1 ≠ p.2))

theorem run_node_some_eq :
    ∀ (hs : List Int) (last : Int), run_node (some last) hs = adjacent_changes (last :: hs) := by
  intro hs
  induction hs with
  | nil => intro last; rfl
  | cons h rest ih =>
    intro last
    show (if h ≠ last then 1 else 0) + run_node (some h) rest = _
    rw [ih h]
    by_cases hne : h = last
    · subst hne
      simp [adjacent_changes, List.countP_cons]
    · have h2 : ¬(last = h) := fun e => hne e.symm
      simp only [adjacent_changes, List.zip_cons_cons, List.tail_cons, List.countP_cons]
      simp [hne, h2]
      omega

theorem hop_changes_eq_adjacent (hs : List Int) : hop_changes hs = adjacent_changes hs := by
  cases hs with
  | nil => rfl
  | cons h rest =>
    show (0 : Nat) + run_node (some h) rest = _
    rw [run_node_some_eq rest h]
    omega

/-- Concatenation of per-node blocks of history rows, in block order. -/
def rows_of : List (String × List HistRow) → List HistRow
  | [] => []
  | b :: rest => b.2 ++ rows_of rest

/-- The contribution of one node's block to the `changes` dict: its hop-change
count, dropped when zero. -/
def flaky_block_score (b : String × List HistRow) : Option (String × Nat) :=
  if hop_changes (b.2.filterMap (fun r => r.hops_away)) = 0 then none
  else some (b.1, hop_changes (b.2.filterMap (fun r => r.hops_away)))

/-- Per-block entry as the claim words it: node id with its adjacent-change
score, omitted when the score is zero (spec-words counterpart of
`flaky_block_score`). -/
def claimed_block_score (b : String × List HistRow) : Option (String × Nat) :=
  if adjacent_changes (b.2.filterMap (fun r => r.hops_away)) = 0 then none
  else some (b.1, adjacent_changes (b.2.filterMap (fun r => r.hops_away)))

theorem flaky_block_score_eq_claimed : flaky_block_score = claimed_block_score := by
  funext b
  unfold flaky_block_score claimed_block_score
  rw [hop_changes_eq_adjacent]

theorem eq_of_nodup_keys {β : Type v} :
    ∀ (l : List (String × β)), (l.map Prod.fst).Nodup →
      ∀ x ∈ l, ∀ y ∈ l, x.1 = y.1 → x = y := by
  intro l
  induction l with
  | nil => intro _ x hx; cases hx
  | cons a t ih =>
    intro hnd x hx y hy hxy
    rw [List.map_cons, List.nodup_cons] at hnd
    rcases List.mem_cons.mp hx with rfl | hx'
    · rcases List.mem_cons.mp hy with rfl | hy'
      · rfl
      · exact absurd (hxy ▸ List.mem_map.mpr ⟨y, hy', rfl⟩) hnd.1
    · rcases List.mem_cons.mp hy with rfl | hy'
      · exact absurd (hxy ▸ List.mem_map.mpr ⟨x, hx', rfl⟩) hnd.1
      · exact ih hnd.2 x hx' y hy' hxy

theorem flaky_fold_blocks :
    ∀ (blocks : List (String × List HistRow)),
      (∀ b ∈ blocks, ∀ r ∈ b.2, r.node_id = b.1) →
      (blocks.map Prod.fst).Nodup →
      ∀ (changes : List (String × Nat)) (prev : List (String × Int)),
        (∀ b ∈ blocks, alookup changes b.1 = none ∧ alookup prev b.1 = none) →
        ((rows_of blocks).foldl flaky_step (changes, prev)).1
          = changes ++ blocks.filterMap flaky_block_score := by
  intro blocks
  induction blocks with
  | nil => intro _ _ changes prev _; simp [rows_of]
  | cons b rest ih =>
    intro hgrp hnd changes prev hnone
    have hgb : ∀ r ∈ b.2, r.node_id = b.1 := hgrp b (List.mem_cons_self b rest)
    have hgrp2 : ∀ c ∈ rest, ∀ r ∈ c.2, r.node_id = c.1 :=
      fun c hc => hgrp c (List.mem_cons_of_mem b hc)
    rw [List.map_cons, List.nodup_cons] at hnd
    have hcb := hnone b (List.mem_cons_self b rest)
    show ((b.2 ++ rows_of rest).foldl flaky_step (changes, prev)).1 = _
    rw [List.foldl_append]
    have hs0 : (b.2.foldl flaky_step (changes, prev)).1
        = changes ++ (flaky_block_score b).toList := by
      rw [flaky_fold_block b.1 b.2 hgb changes prev, hcb.2, hcb.1]
      by_cases hz : run_node none (b.2.filterMap (fun r => r.hops_away)) = 0
      · simp [flaky_block_score, hop_changes, hz]
      · simp [flaky_block_score, hop_changes, hz]
    have hnone2 : ∀ c ∈ rest,
        alookup (b.2.foldl flaky_step (changes, prev)).1 c.1 = none ∧
        alookup (b.2.foldl flaky_step (changes, prev)).2 c.1 = none := by
      intro c hc
      have hne : c.1 ≠ b.1 := by
        intro e
        exact hnd.1 (e ▸ List.mem_map.mpr ⟨c, hc, rfl⟩)
      constructor
      · rw [hs0, alookup_append, (hnone c (List.mem_cons_of_mem b hc)).1]
        show alookup (flaky_block_score b).toList c.1 = none
        unfold flaky_block_score
        by_cases hz : hop_changes (b.2.filterMap (fun r => r.hops_away)) = 0
        · simp [hz]
        · have hbc : b.1 ≠ c.1 := fun e => hne e.symm
          simp [hz, hbc]
      · rw [(flaky_fold_other_keys b.1 b.2 hgb changes prev c.1 hne).2]
        exact (hnone c (List.mem_cons_of_mem b hc)).2
    have hih := ih hgrp2 hnd.2 (b.2.foldl flaky_step (changes, prev)).1
      (b.2.foldl flaky_step (changes, prev)).2 hnone2
    have heta : ((b.2.foldl flaky_step (changes, prev)).1,
        (b.2.foldl flaky_step (changes, prev)).2) = b.2.foldl flaky_step (changes, prev) := rfl
    rw [heta] at hih
    rw [hih, hs0, List.filterMap_cons]
    cases hfb : flaky_block_score b
    · simp
    · simp

/-- C5: decompose the flaky window rows into contiguous per-node blocks (their
time order within a block is the fetch order). Then (0) `summary.nodes_flaky`
is the ranked output built from the loop's `changes` dict over those rows;
(1) that dict holds exactly the nodes whose adjacent-pair change count over
their present hop values is positive, each mapped to that count — rows with
missing hop count are skipped by the counting; (2) every listed entry carries
its node's adjacent-change score, which is positive; (3) a node whose score is
zero never appears in the ranked list. -/
theorem c5_flakiness_score
    (db : StatsDB) (now hours top_limit event_limit nodes_days : Int) (lid : Option String)
    (blocks : List (String × List HistRow))
    (hgrp : ∀ b ∈ blocks, ∀ r ∈ b.2, r.node_id = b.1)
    (hnd : (blocks.map Prod.fst).Nodup)
    (hrows : flaky_rows db (now - (max 1 nodes_days) * 86400) = rows_of blocks) :
    (summary db now hours top_limit event_limit lid nodes_days).nodes_flaky
        = flaky_output db.node_counts (flaky_changes (rows_of blocks)) (max 1 top_limit).toNat ∧
    flaky_changes (rows_of blocks) = blocks.filterMap claimed_block_score ∧
    (∀ e ∈ (summary db now hours top_limit event_limit lid nodes_days).nodes_flaky,
        ∃ b ∈ blocks, e.id = b.1 ∧
          e.hopChanges = adjacent_changes (b.2.filterMap (fun r => r.hops_away)) ∧
          0 < adjacent_changes (b.2.filterMap (fun r => r.hops_away))) ∧
    (∀ b ∈ blocks, adjacent_changes (b.2.filterMap (fun r => r.hops_away)) = 0 →
        ∀ e ∈ (summary db now hours top_limit event_limit lid nodes_days).nodes_flaky,
          e.id ≠ b.1) := by
  have h0 : (summary db now hours top_limit event_limit lid nodes_days).nodes_flaky
      = _get_node_flaky db (now - (max 1 nodes_days) * 86400) (max 1 top_limit).toNat := rfl
  have h0full : (summary db now hours top_limit event_limit lid nodes_days).nodes_flaky
      = flaky_output db.node_counts (flaky_changes (rows_of blocks)) (max 1 top_limit).toNat := by
    rw [h0]
    unfold _get_node_flaky
    rw [hrows]
  have hchanges : flaky_changes (rows_of blocks) = blocks.filterMap claimed_block_score := by
    unfold flaky_changes
    rw [flaky_fold_blocks blocks hgrp hnd [] [] (fun b _ => ⟨rfl, rfl⟩),
      flaky_block_score_eq_claimed]
    rfl
  have hsound : ∀ e ∈ (summary db now hours top_limit event_limit lid nodes_days).nodes_flaky,
      ∃ b ∈ blocks, e.id = b.1 ∧
        e.hopChanges = adjacent_changes (b.2.filterMap (fun r => r.hops_away)) ∧
        0 < adjacent_changes (b.2.filterMap (fun r => r.hops_away)) := by
    intro e he
    rw [h0full] at he
    unfold flaky_output at he
    by_cases hemp : (flaky_changes (rows_of blocks)).isEmpty
    · rw [if_pos hemp] at he
      cases he
    · rw [if_neg hemp] at he
      obtain ⟨p, hp, rfl⟩ := List.mem_map.mp he
      have hp1 : p ∈ sortedBy (fun a b => decide (b.2 ≤ a.2)) (flaky_changes (rows_of blocks)) :=
        List.take_subset _ _ hp
      have hp2 : p ∈ flaky_changes (rows_of blocks) := (mem_sortedBy _ _ _).mp hp1
      rw [hchanges] at hp2
      obtain ⟨b, hb, hfb⟩ := List.mem_filterMap.mp hp2
      unfold claimed_block_score at hfb
      by_cases hz : adjacent_changes (b.2.filterMap (fun r => r.hops_away)) = 0
      · rw [if_pos hz] at hfb
        cases hfb
      · rw [if_neg hz] at hfb
        have hfb2 : (b.1, adjacent_changes (b.2.filterMap (fun r => r.hops_away))) = p :=
          Option.some.inj hfb
        subst hfb2
        exact ⟨b, hb, rfl, rfl, Nat.pos_of_ne_zero hz⟩
  refine ⟨h0full, hchanges, hsound, ?_⟩
  intro b hb hz e he heid
  obtain ⟨b2, hb2, heq, _, hpos⟩ := hsound e he
  have hbb : b2 = b :=
    eq_of_nodup_keys blocks hnd b2 hb2 b hb (by rw [← heq, heid])
  rw [hbb] at hpos
  omega

/-- The claim's first example block: hop counts `[1,1,2,2,1]` for node `!a`. -/
def flakyRowsA : List HistRow :=
  [⟨1, "!a", none, none, some 1, none⟩, ⟨2, "!a", none, none, some 1, none⟩,
   ⟨3, "!a", none, none, some 2, none⟩, ⟨4, "!a", none, none, some 2, none⟩,
   ⟨5, "!a", none, none, some 1, none⟩]

/-- The claim's second example block: hop counts `[1,1,1]` for node `!b`. -/
def flakyRowsB : List HistRow :=
  [⟨6, "!b", none, none, some 1, none⟩, ⟨7, "!b", none, none, some 1, none⟩,
   ⟨8, "!b", none, none, some 1, none⟩]

def flakyBlocksEx : List (String × List HistRow) := [("!a", flakyRowsA), ("!b", flakyRowsB)]

def flakyDbEx : StatsDB := { StatsDB.init 0 0 with node_history := rows_of flakyBlocksEx }

theorem c5_flakiness_score_witness :
    (flakyRowsA.filterMap (fun r => r.hops_away) = [1, 1, 2, 2, 1] ∧
     flakyRowsB.filterMap (fun r => r.hops_away) = [1, 1, 1] ∧
     adjacent_changes [1, 1, 2, 2, 1] = 2 ∧
     adjacent_changes [1, 1, 1] = 0) ∧
    flaky_changes (rows_of flakyBlocksEx) = [("!a", 2)] ∧
    (summary flakyDbEx 86400 1 8 1 none 1).nodes_flaky
        = [(⟨"!a", none, none, 2⟩ : FlakyEntry)] ∧
    (⟨"!a", none, none, 2⟩ : FlakyEntry).id ≠ "!b" := by
  have h := c5_flakiness_score flakyDbEx 86400 1 8 1 1 none flakyBlocksEx
    (by decide) (by decide) (by decide)
  refine ⟨⟨by decide, by decide, by decide, by decide⟩, ?_, ?_, ?_⟩
  · rw [h.2.1]
    decide
  · rw [h.1]
    decide
  · exact h.2.2.2 ("!b", flakyRowsB) (by decide) (by decide) ⟨"!a", none, none, 2⟩
      (by rw [h.1]; decide)

end MeshMon
